import Mathlib

/-!
# Sink configuration aggregation (`pkg/ctl/sinks/util.go`)

A shallow embedding of `processArguments`, `validateSinkType`, `parseConfigs`,
`validateSinkConfigs`, `checkArgsForUpdate`, `processNamespaceCmd` and
`processBaseArguments`, followed by theorems about them.

Conventions of the embedding.

* A Go `string` is a Lean `String` (valid UTF-8 is assumed, so that prefix and
  substring tests on bytes and on characters agree).
* Go `int` and `int64` values are `Int`; the code only compares and copies
  them, it does no arithmetic on them.
* A Go `float64` is its IEEE-754 bit pattern; the code only compares it with
  zero and copies it.
* A Go `error` is its message, a `String`; a returned `error` is
  `Option String` with `none` for `nil`.
* A Go map is `Option` of an association list, `none` being the `nil` map.
* The functions mutate their argument in place, also on the paths that return
  an error, so every function returns the state it leaves behind.
* Calls to collaborators that are outside the file (the file system, the
  YAML and JSON decoders, the administrative client, `pkg/ctl/utils`) go
  through an `Env` record; the calls made are recorded in a trace.
-/

namespace Sinks

/-! ## The `strings` functions the source calls -/

namespace strings

/-- Worker of `Split` for a one-character separator: `acc` holds the
characters of the current piece, last one first. -/
def splitChars (sep : Char) : List Char → List Char → List (List Char)
  | acc, [] => [acc.reverse]
  | acc, c :: cs =>
    if c = sep then acc.reverse :: splitChars sep [] cs
    else splitChars sep (c :: acc) cs

/-- Go `strings.Split(s, sep)` for a separator of one character (the source
only splits on a comma). -/
def Split (s : String) (sep : Char) : List String :=
  (splitChars sep [] s.data).map String.mk

/-- Go `strings.Join(elems, sep)`. -/
def Join (elems : List String) (sep : String) : String :=
  String.mk (List.intercalate sep.data (elems.map String.data))

/-- Whether `sub` occurs as a contiguous run inside `s`. -/
def containsChars (sub : List Char) : List Char → Bool
  | [] => sub.isEmpty
  | c :: cs => sub.isPrefixOf (c :: cs) || containsChars sub cs

/-- Go `strings.Contains(s, substr)`. -/
def Contains (s substr : String) : Bool :=
  containsChars substr.data s.data

/-- Go `strings.HasPrefix(s, p)`. -/
def HasPrefix (s p : String) : Bool :=
  p.data.isPrefixOf s.data

end strings

/-! ## Data model -/

/-- A Go `float64`, as its IEEE-754 bit pattern. -/
structure F64 where
  bits : Nat
  deriving DecidableEq, Repr

/-- Go `x != 0` on a `float64` is false exactly for the two zeros, whose bit
patterns are `0` and `2^63`. -/
def F64.isZero (x : F64) : Bool :=
  x.bits % 2 ^ 63 == 0

/-- The Go type `util.Resources`. -/
structure Resources where
  CPU : F64
  Disk : Int
  RAM : Int
  deriving DecidableEq, Repr

/-- A value stored in a `map[string]interface{}`; the code never looks inside. -/
structure JSONValue where
  raw : String
  deriving DecidableEq, Repr

/-- A pointer held by a `SinkConfig` field. The source stores
`&sinkData.TopicsPattern` and `&sinkData.TimeoutMs` into the configuration, so
such a pointer is `nil`, or points to a cell of its own, or points to the
field of the same name of the `SinkData` that holds the configuration. -/
inductive Ref (α : Type) where
  | null : Ref α
  | own (v : α) : Ref α
  | field : Ref α
  deriving DecidableEq, Repr

/-- What a pointer points to, `cur` being the present value of the aliased
`SinkData` field. -/
def Ref.get {α : Type} (cur : α) : Ref α → Option α
  | .null => none
  | .own v => some v
  | .field => some cur

/-- The Go type `util.SinkConfig`, restricted to the fields the source reads
or writes. `S` and `I` are the representations of the two pointer fields. -/
structure SinkConfigOf (S I : Type) where
  TopicsPattern : S
  Resources : Option Resources
  TimeoutMs : I
  RetainOrdering : Bool
  AutoAck : Bool
  Parallelism : Int
  Tenant : String
  Namespace : String
  Name : String
  ClassName : String
  Archive : String
  ProcessingGuarantees : String
  SourceSubscriptionName : String
  SourceSubscriptionPosition : String
  Inputs : List String
  TopicToSerdeClassName : Option (List (String × String))
  TopicToSchemaType : Option (List (String × String))
  Configs : Option (List (String × JSONValue))
  deriving DecidableEq, Repr

/-- A configuration as it lies in memory. -/
abbrev SinkConfig := SinkConfigOf (Ref String) (Ref Int)

/-- A configuration with its pointers followed: what a decoder sees. -/
abbrev SinkConfigVal := SinkConfigOf (Option String) (Option Int)

/-- The value of `new(util.SinkConfig)`. -/
def SinkConfig.zero : SinkConfig where
  TopicsPattern := .null
  Resources := none
  TimeoutMs := .null
  RetainOrdering := false
  AutoAck := false
  Parallelism := 0
  Tenant := ""
  Namespace := ""
  Name := ""
  ClassName := ""
  Archive := ""
  ProcessingGuarantees := ""
  SourceSubscriptionName := ""
  SourceSubscriptionPosition := ""
  Inputs := []
  TopicToSerdeClassName := none
  TopicToSchemaType := none
  Configs := none

/-- The Go type `util.SinkData`, restricted to the fields the source reads or
writes. -/
structure SinkData where
  RetainOrdering : Bool
  AutoAck : Bool
  Parallelism : Int
  RAM : Int
  Disk : Int
  TimeoutMs : Int
  CPU : F64
  Tenant : String
  Namespace : String
  Name : String
  SinkType : String
  Inputs : String
  TopicsPattern : String
  SubsName : String
  SubsPosition : String
  CustomSerdeInputString : String
  CustomSchemaInputString : String
  ProcessingGuarantees : String
  Archive : String
  ClassName : String
  SinkConfigFile : String
  SinkConfigString : String
  SinkConf : Option SinkConfig
  deriving DecidableEq, Repr

/-- A `SinkData` with every override unset and no configuration. -/
def SinkData.zero : SinkData where
  RetainOrdering := false
  AutoAck := false
  Parallelism := 0
  RAM := 0
  Disk := 0
  TimeoutMs := 0
  CPU := ⟨0⟩
  Tenant := ""
  Namespace := ""
  Name := ""
  SinkType := ""
  Inputs := ""
  TopicsPattern := ""
  SubsName := ""
  SubsPosition := ""
  CustomSerdeInputString := ""
  CustomSchemaInputString := ""
  ProcessingGuarantees := ""
  Archive := ""
  ClassName := ""
  SinkConfigFile := ""
  SinkConfigString := ""
  SinkConf := none

/-- The Go type `util.ConnectorDefinition`; only `Name` is read. -/
structure ConnectorDefinition where
  Name : String
  deriving DecidableEq, Repr

/-- The three outcomes of `ioutil.ReadFile` the source tells apart. -/
inductive ReadResult where
  | ok (content : String)
  | notExist (msg : String)
  | failed (msg : String)
  deriving DecidableEq, Repr

/-- A call to a collaborator. -/
inductive Event where
  | ReadFile (path : String)
  | Unmarshal (content : String)
  | GetBuiltInSinks
  | Printf (msg : String)
  | InferMissingSinkeArguments
  | IsFileExist (path : String)
  deriving DecidableEq, Repr

/-- The collaborators of the file, none of which is defined in it.

* `ReadFile`: `ioutil.ReadFile`, with `os.IsNotExist` already applied.
* `yamlUnmarshal`: `yaml.Unmarshal(content, conf)`. It yields the
  configuration after decoding and the error, if any; a decoder may have
  written some fields before it fails.
* `jsonUnmarshalStrings`: `json.Unmarshal` into a pointer to a fresh
  `map[string]string`: the map it leaves, which is `nil` on a JSON `null`.
* `jsonUnmarshalConfigs`: `json.Unmarshal` into a `nil`
  `map[string]interface{}`, which stays `nil` on a JSON `null`.
* `GetBuiltInSinks`: `admin.Sinks().GetBuiltInSinks()`.
* `NewDefaultResources`: `util.NewDefaultResources()`.
* `PublicTenant`, `DefaultNamespace`, `BUILTIN`, `IsPackageURLSupported`,
  `IsFileExist`, `InferMissingSinkeArguments`: from `pkg/ctl/utils`. -/
structure Env where
  ReadFile : String → ReadResult
  yamlUnmarshal : String → SinkConfigVal → SinkConfigVal × Option String
  jsonUnmarshalStrings : String → Except String (Option (List (String × String)))
  jsonUnmarshalConfigs : String → Except String (Option (List (String × JSONValue)))
  GetBuiltInSinks : Except String (List ConnectorDefinition)
  NewDefaultResources : Resources
  PublicTenant : String
  DefaultNamespace : String
  BUILTIN : String
  IsPackageURLSupported : String → Bool
  IsFileExist : String → Bool
  InferMissingSinkeArguments : SinkConfig → SinkConfig

/-! ## The operations -/

/-- The configuration a decoder sees: the pointers of `conf` followed, the
aliased ones into `sinkData`. -/
def SinkConfig.view (sinkData : SinkData) (conf : SinkConfig) : SinkConfigVal where
  TopicsPattern := conf.TopicsPattern.get sinkData.TopicsPattern
  Resources := conf.Resources
  TimeoutMs := conf.TimeoutMs.get sinkData.TimeoutMs
  RetainOrdering := conf.RetainOrdering
  AutoAck := conf.AutoAck
  Parallelism := conf.Parallelism
  Tenant := conf.Tenant
  Namespace := conf.Namespace
  Name := conf.Name
  ClassName := conf.ClassName
  Archive := conf.Archive
  ProcessingGuarantees := conf.ProcessingGuarantees
  SourceSubscriptionName := conf.SourceSubscriptionName
  SourceSubscriptionPosition := conf.SourceSubscriptionPosition
  Inputs := conf.Inputs
  TopicToSerdeClassName := conf.TopicToSerdeClassName
  TopicToSchemaType := conf.TopicToSchemaType
  Configs := conf.Configs

/-- The pointer a decoder leaves behind when the pointer was `old` and the
decoded value is `new`: `nil` for no value, and otherwise the pointer it
found (a decoder writes through a pointer that is not `nil`) or a new cell. -/
def Ref.stored {α : Type} (old : Ref α) (new : Option α) : Ref α :=
  match old, new with
  | _, none => .null
  | .field, some _ => .field
  | _, some v => .own v

/-- The value of the aliased `SinkData` field after a decoder stored `new`
through the pointer `old`. -/
def Ref.written {α : Type} (old : Ref α) (new : Option α) (cur : α) : α :=
  match old, new with
  | .field, some v => v
  | _, _ => cur

/-- The configuration in memory after a decoder turned what it saw into `v`. -/
def SinkConfig.store (conf : SinkConfig) (v : SinkConfigVal) : SinkConfig where
  TopicsPattern := conf.TopicsPattern.stored v.TopicsPattern
  Resources := v.Resources
  TimeoutMs := conf.TimeoutMs.stored v.TimeoutMs
  RetainOrdering := v.RetainOrdering
  AutoAck := v.AutoAck
  Parallelism := v.Parallelism
  Tenant := v.Tenant
  Namespace := v.Namespace
  Name := v.Name
  ClassName := v.ClassName
  Archive := v.Archive
  ProcessingGuarantees := v.ProcessingGuarantees
  SourceSubscriptionName := v.SourceSubscriptionName
  SourceSubscriptionPosition := v.SourceSubscriptionPosition
  Inputs := v.Inputs
  TopicToSerdeClassName := v.TopicToSerdeClassName
  TopicToSchemaType := v.TopicToSchemaType
  Configs := v.Configs

/-- The `SinkData` after a decoder turned what it saw of `conf` into `v`:
only the two fields a configuration can point into may change. -/
def SinkData.store (sinkData : SinkData) (conf : SinkConfig) (v : SinkConfigVal) : SinkData :=
  { sinkData with
    TopicsPattern := conf.TopicsPattern.written v.TopicsPattern sinkData.TopicsPattern
    TimeoutMs := conf.TimeoutMs.written v.TimeoutMs sinkData.TimeoutMs }

/-- The state a function leaves behind: the `SinkData` (its `SinkConf`
included), the returned `error`, and the collaborator calls made. -/
structure Outcome where
  data : SinkData
  err : Option String
  trace : List Event
  deriving DecidableEq, Repr

/-- A configuration, the returned `error`, and the collaborator calls made. -/
structure ConfOutcome where
  conf : SinkConfig
  err : Option String
  trace : List Event
  deriving DecidableEq, Repr

/-- The configuration held by a `SinkData`, the zero one when there is none
(`processArguments`, lines 39-43). -/
def SinkData.conf (sinkData : SinkData) : SinkConfig :=
  match sinkData.SinkConf with
  | some conf => conf
  | none => SinkConfig.zero

/-- The `SinkData` holding the configuration `conf`, its overrides unchanged. -/
def SinkData.withConf (sinkData : SinkData) (conf : SinkConfig) : SinkData :=
  { sinkData with SinkConf := some conf }

/-- The configuration held by a `SinkData` as a decoder or a reader sees it,
its pointers followed. -/
def SinkData.confVal (sinkData : SinkData) : SinkConfigVal :=
  sinkData.conf.view sinkData

/-- `fmt` of a `[]string` under the verb `%s`. -/
def fmtStrings (xs : List String) : String :=
  "[" ++ strings.Join xs " " ++ "]"

/-- `validateSinkType` (lines 173-194): the locator, and the calls made. -/
def validateSinkType (env : Env) (sinkType : String) : String × List Event :=
  match env.GetBuiltInSinks with
  | .error e =>
    ("", [Event.GetBuiltInSinks, Event.Printf ("get builtin sinks error: " ++ e ++ "\n")])
  | .ok connectorDefinition =>
    let availableSinks := connectorDefinition.map ConnectorDefinition.Name
    let availableSinksString := strings.Join availableSinks " "
    if !strings.Contains availableSinksString sinkType then
      ("", [Event.GetBuiltInSinks,
        Event.Printf ("invalid sink type [" ++ sinkType ++ "] -- Available sinks are: "
          ++ fmtStrings availableSinks)])
    else
      ("builtin://" ++ sinkType, [Event.GetBuiltInSinks])

/-- `parseConfigs` (lines 196-205). -/
def parseConfigs (env : Env) (str : String) : Option (List (String × JSONValue)) :=
  match env.jsonUnmarshalConfigs str with
  | .error _ => none
  | .ok resMap => resMap

/-- `processArguments`, lines 45-55: read and decode the configuration file
onto `sinkData.SinkConf`. -/
def loadConfigFile (env : Env) (sinkData : SinkData) : Outcome :=
  let conf := sinkData.conf
  if sinkData.SinkConfigFile ≠ "" then
    match env.ReadFile sinkData.SinkConfigFile with
    | .ok yamlFile =>
      let r := env.yamlUnmarshal yamlFile (conf.view sinkData)
      let data := { sinkData.store conf r.1 with SinkConf := some (conf.store r.1) }
      let trace := [Event.ReadFile sinkData.SinkConfigFile, Event.Unmarshal yamlFile]
      match r.2 with
      | some e => ⟨data, some ("unmarshal yaml file error:" ++ e), trace⟩
      | none => ⟨data, none, trace⟩
    | .notExist _ =>
      ⟨{ sinkData with SinkConf := some conf }, none, [Event.ReadFile sinkData.SinkConfigFile]⟩
    | .failed e =>
      ⟨{ sinkData with SinkConf := some conf }, some ("load conf file failed, err:" ++ e),
        [Event.ReadFile sinkData.SinkConfigFile]⟩
  else
    ⟨{ sinkData with SinkConf := some conf }, none, []⟩

/-- `processArguments`, lines 57-84. -/
def mergeIdentity (sinkData : SinkData) (conf : SinkConfig) : SinkConfig :=
  let conf := if sinkData.Tenant ≠ "" then { conf with Tenant := sinkData.Tenant } else conf
  let conf := if sinkData.Namespace ≠ "" then { conf with Namespace := sinkData.Namespace } else conf
  let conf := if sinkData.Name ≠ "" then { conf with Name := sinkData.Name } else conf
  let conf := if sinkData.ClassName ≠ "" then { conf with ClassName := sinkData.ClassName } else conf
  let conf := if sinkData.ProcessingGuarantees ≠ "" then
    { conf with ProcessingGuarantees := sinkData.ProcessingGuarantees } else conf
  let conf := if sinkData.RetainOrdering then
    { conf with RetainOrdering := sinkData.RetainOrdering } else conf
  let conf := if sinkData.Inputs ≠ "" then
    { conf with Inputs := strings.Split sinkData.Inputs ',' } else conf
  conf

/-- `processArguments`, lines 86-93: `.error` stands for the early `return err`.
The map stored is the one the decoder left, `nil` after a JSON `null`. -/
def mergeSerde (env : Env) (sinkData : SinkData) (conf : SinkConfig) : Except String SinkConfig :=
  if sinkData.CustomSerdeInputString ≠ "" then
    match env.jsonUnmarshalStrings sinkData.CustomSerdeInputString with
    | .error err => .error err
    | .ok customSerdeInputMap =>
      .ok { conf with TopicToSerdeClassName := customSerdeInputMap }
  else .ok conf

/-- `processArguments`, lines 95-102, as for the serde mapping. -/
def mergeSchema (env : Env) (sinkData : SinkData) (conf : SinkConfig) : Except String SinkConfig :=
  if sinkData.CustomSchemaInputString ≠ "" then
    match env.jsonUnmarshalStrings sinkData.CustomSchemaInputString with
    | .error err => .error err
    | .ok customSchemaInputMap =>
      .ok { conf with TopicToSchemaType := customSchemaInputMap }
  else .ok conf

/-- `processArguments`, lines 104-120. -/
def mergeSubscription (sinkData : SinkData) (conf : SinkConfig) : SinkConfig :=
  let conf := if sinkData.SubsName ≠ "" then
    { conf with SourceSubscriptionName := sinkData.SubsName } else conf
  let conf := if sinkData.SubsPosition ≠ "" then
    { conf with SourceSubscriptionPosition := sinkData.SubsPosition } else conf
  let conf := if sinkData.TopicsPattern ≠ "" then
    { conf with TopicsPattern := Ref.field } else conf
  let conf := if sinkData.Parallelism ≠ 0 then
    { conf with Parallelism := sinkData.Parallelism } else { conf with Parallelism := 1 }
  conf

/-- `processArguments`, lines 126-132. -/
def mergeArchive (env : Env) (sinkData : SinkData) (conf : SinkConfig) : SinkConfig × List Event :=
  let conf := if sinkData.Archive ≠ "" then { conf with Archive := sinkData.Archive } else conf
  if sinkData.SinkType ≠ "" then
    let r := validateSinkType env sinkData.SinkType
    ({ conf with Archive := r.1 }, r.2)
  else (conf, [])

/-- The `Resources` of a configuration, allocated when absent
(`if sinkData.SinkConf.Resources == nil ...`). -/
def resourcesOrDefault (env : Env) (conf : SinkConfig) : Resources :=
  match conf.Resources with
  | some r => r
  | none => env.NewDefaultResources

/-- `processArguments`, lines 134-156. -/
def mergeResources (env : Env) (sinkData : SinkData) (conf : SinkConfig) : SinkConfig :=
  let conf := if !sinkData.CPU.isZero then
    { conf with Resources := some { resourcesOrDefault env conf with CPU := sinkData.CPU } }
    else conf
  let conf := if sinkData.Disk ≠ 0 then
    { conf with Resources := some { resourcesOrDefault env conf with Disk := sinkData.Disk } }
    else conf
  let conf := if sinkData.RAM ≠ 0 then
    { conf with Resources := some { resourcesOrDefault env conf with RAM := sinkData.RAM } }
    else conf
  conf

/-- The `Resources` that lines 134-156 leave in a configuration whose
`Resources` were `r`; the lines read nothing else of the configuration. -/
def resourcesAfter (env : Env) (sinkData : SinkData) (r : Option Resources) : Option Resources :=
  (mergeResources env sinkData { SinkConfig.zero with Resources := r }).Resources

/-- `processArguments`, lines 158-168. -/
def mergeTail (env : Env) (sinkData : SinkData) (conf : SinkConfig) : SinkConfig :=
  let conf := if sinkData.SinkConfigString ≠ "" then
    { conf with Configs := parseConfigs env sinkData.SinkConfigString } else conf
  let conf := if sinkData.AutoAck then { conf with AutoAck := sinkData.AutoAck } else conf
  let conf := if sinkData.TimeoutMs ≠ 0 then { conf with TimeoutMs := Ref.field } else conf
  conf

/-- `processArguments`, lines 57-170: the overrides of `sinkData` applied to
`conf`, with the three early returns. -/
def mergeOverrides (env : Env) (sinkData : SinkData) (conf : SinkConfig) : ConfOutcome :=
  let conf := mergeIdentity sinkData conf
  match mergeSerde env sinkData conf with
  | .error err => ⟨conf, some err, []⟩
  | .ok conf =>
    match mergeSchema env sinkData conf with
    | .error err => ⟨conf, some err, []⟩
    | .ok conf =>
      let conf := mergeSubscription sinkData conf
      if sinkData.Archive ≠ "" ∧ sinkData.SinkType ≠ "" then
        ⟨conf, some "Cannot specify both archive and sink-type", []⟩
      else
        let r := mergeArchive env sinkData conf
        let conf := mergeResources env sinkData r.1
        let conf := mergeTail env sinkData conf
        ⟨conf, none, r.2⟩

/-- `processArguments` (lines 37-171). -/
def processArguments (env : Env) (sinkData : SinkData) : Outcome :=
  let loaded := loadConfigFile env sinkData
  match loaded.err with
  | some err => ⟨loaded.data, some err, loaded.trace⟩
  | none =>
    let r := mergeOverrides env loaded.data loaded.data.conf
    ⟨{ loaded.data with SinkConf := some r.conf }, r.err, loaded.trace ++ r.trace⟩

/-- `validateSinkConfigs` (lines 207-224). The file-existence collaborator is
called only when both tests of line 214 hold. -/
def validateSinkConfigs (env : Env) (sinkConf : SinkConfig) : ConfOutcome :=
  if sinkConf.Archive = "" then
    ⟨sinkConf, some "Sink archive not specified", []⟩
  else
    let sinkConf := env.InferMissingSinkeArguments sinkConf
    let checked := env.IsPackageURLSupported sinkConf.Archive
      && strings.HasPrefix sinkConf.Archive env.BUILTIN
    let trace := if checked then
      [Event.InferMissingSinkeArguments, Event.IsFileExist sinkConf.Archive]
      else [Event.InferMissingSinkeArguments]
    if checked && !env.IsFileExist sinkConf.Archive then
      ⟨sinkConf, some ("sink Archive " ++ sinkConf.Archive ++ " does not exist"), trace⟩
    else if sinkConf.Name = "" then
      ⟨sinkConf, some "sink name not specified", trace⟩
    else
      ⟨sinkConf, none, trace⟩

/-- `checkArgsForUpdate` (lines 226-234). -/
def checkArgsForUpdate (env : Env) (sinkConf : SinkConfig) : SinkConfig :=
  let sinkConf := if sinkConf.Tenant = "" then
    { sinkConf with Tenant := env.PublicTenant } else sinkConf
  let sinkConf := if sinkConf.Namespace = "" then
    { sinkConf with Namespace := env.DefaultNamespace } else sinkConf
  sinkConf

/-- `processNamespaceCmd` (lines 236-241). -/
def processNamespaceCmd (env : Env) (sinkData : SinkData) : SinkData :=
  if sinkData.Tenant = "" ∨ sinkData.Namespace = "" then
    { sinkData with Tenant := env.PublicTenant, Namespace := env.DefaultNamespace }
  else sinkData

/-- `processBaseArguments` (lines 243-251). -/
def processBaseArguments (env : Env) (sinkData : SinkData) : SinkData × Option String :=
  let sinkData := processNamespaceCmd env sinkData
  if sinkData.Name = "" then
    (sinkData, some "You must specify a name for the sink")
  else
    (sinkData, none)

/-! ## A concrete environment -/

/-- A file system with three configuration files and a missing one. -/
def demoReadFile (path : String) : ReadResult :=
  if path = "p5.yaml" then .ok "parallelism: 5"
  else if path = "tp.yaml" then .ok "topicsPattern: foo"
  else if path = "tenant.yaml" then .ok "tenant: t1"
  else if path = "missing.yaml" then .notExist "open missing.yaml: no such file or directory"
  else .failed ("open " ++ path ++ ": permission denied")

/-- The YAML decoder on the three documents of `demoReadFile`: a document
sets the field it names and leaves the others as they are. -/
def demoYaml (content : String) (v : SinkConfigVal) : SinkConfigVal × Option String :=
  if content = "parallelism: 5" then ({ v with Parallelism := 5 }, none)
  else if content = "topicsPattern: foo" then ({ v with TopicsPattern := some "foo" }, none)
  else if content = "tenant: t1" then ({ v with Tenant := "t1" }, none)
  else (v, some "yaml: unmarshal errors")

/-- The JSON decoder into a `map[string]string`, on one object and `null`. -/
def demoJsonStrings (s : String) : Except String (Option (List (String × String))) :=
  if s = "\x7b\"t\":\"c\"\x7d" then .ok (some [("t", "c")])
  else if s = "null" then .ok none
  else .error "invalid character"

/-- The JSON decoder into a `map[string]interface`, on one object and `null`. -/
def demoJsonConfigs (s : String) : Except String (Option (List (String × JSONValue))) :=
  if s = "\x7b\"k\":1\x7d" then .ok (some [("k", ⟨"1"⟩)])
  else if s = "null" then .ok none
  else .error "invalid character"

/-- An environment: the catalog holds `kafka` and `jdbc`, the constants are
those of `pkg/ctl/utils`, no local file exists. -/
def demoEnv : Env where
  ReadFile := demoReadFile
  yamlUnmarshal := demoYaml
  jsonUnmarshalStrings := demoJsonStrings
  jsonUnmarshalConfigs := demoJsonConfigs
  GetBuiltInSinks := .ok [⟨"kafka"⟩, ⟨"jdbc"⟩]
  NewDefaultResources := ⟨⟨4607182418800017408⟩, 10737418240, 1073741824⟩
  PublicTenant := "public"
  DefaultNamespace := "default"
  BUILTIN := "builtin"
  IsPackageURLSupported := fun s =>
    (s ≠ "" && strings.HasPrefix s "http") || strings.HasPrefix s "file"
  IsFileExist := fun _ => false
  InferMissingSinkeArguments := fun c => c

/-! ## When decoding the file again is harmless -/

/-- Two `Resources` values that differ at most in sub-fields whose override
in `sinkData` is not zero. -/
def resourcesAgree (sinkData : SinkData) : Option Resources → Option Resources → Prop
  | none, none => True
  | some r1, some r2 =>
    (r2.CPU = r1.CPU ∨ sinkData.CPU.isZero = false)
    ∧ (r2.Disk = r1.Disk ∨ sinkData.Disk ≠ 0)
    ∧ (r2.RAM = r1.RAM ∨ sinkData.RAM ≠ 0)
  | _, _ => False

instance resourcesAgreeDecidable (sinkData : SinkData) (a b : Option Resources) :
    Decidable (resourcesAgree sinkData a b) := by
  cases a <;> cases b <;> unfold resourcesAgree <;> infer_instance

/-- The configuration `again`, obtained by decoding the file onto the merged
configuration `merged`, differs from `merged` at most in fields whose
override in `sinkData` is set, which lines 57-170 assign anew. Parallelism
is assigned on every run and is not compared. -/
def reloadAgrees (sinkData : SinkData) (merged again : SinkConfig) : Prop :=
  (again.Tenant = merged.Tenant ∨ sinkData.Tenant ≠ "")
  ∧ (again.Namespace = merged.Namespace ∨ sinkData.Namespace ≠ "")
  ∧ (again.Name = merged.Name ∨ sinkData.Name ≠ "")
  ∧ (again.ClassName = merged.ClassName ∨ sinkData.ClassName ≠ "")
  ∧ (again.ProcessingGuarantees = merged.ProcessingGuarantees
      ∨ sinkData.ProcessingGuarantees ≠ "")
  ∧ (again.RetainOrdering = merged.RetainOrdering ∨ sinkData.RetainOrdering = true)
  ∧ (again.Inputs = merged.Inputs ∨ sinkData.Inputs ≠ "")
  ∧ (again.TopicToSerdeClassName = merged.TopicToSerdeClassName
      ∨ sinkData.CustomSerdeInputString ≠ "")
  ∧ (again.TopicToSchemaType = merged.TopicToSchemaType
      ∨ sinkData.CustomSchemaInputString ≠ "")
  ∧ (again.SourceSubscriptionName = merged.SourceSubscriptionName ∨ sinkData.SubsName ≠ "")
  ∧ (again.SourceSubscriptionPosition = merged.SourceSubscriptionPosition
      ∨ sinkData.SubsPosition ≠ "")
  ∧ (again.TopicsPattern = merged.TopicsPattern ∨ sinkData.TopicsPattern ≠ "")
  ∧ (again.Archive = merged.Archive ∨ sinkData.Archive ≠ "" ∨ sinkData.SinkType ≠ "")
  ∧ resourcesAgree sinkData merged.Resources again.Resources
  ∧ (again.Configs = merged.Configs ∨ sinkData.SinkConfigString ≠ "")
  ∧ (again.AutoAck = merged.AutoAck ∨ sinkData.AutoAck = true)
  ∧ (again.TimeoutMs = merged.TimeoutMs ∨ sinkData.TimeoutMs ≠ 0)

instance reloadAgreesDecidable (sinkData : SinkData) (merged again : SinkConfig) :
    Decidable (reloadAgrees sinkData merged again) := by
  unfold reloadAgrees
  infer_instance

/-! ## Lemmas on the steps of `processArguments` -/

/-- The file step changes at most the two fields a configuration can point
into, and always leaves a configuration behind. -/
theorem loadConfigFile_data (env : Env) (d : SinkData) :
    ∃ tp tm conf, (loadConfigFile env d).data
      = { d with TopicsPattern := tp, TimeoutMs := tm, SinkConf := some conf } := by
  unfold loadConfigFile
  split_ifs with h
  · split
    · dsimp only
      split <;> exact ⟨_, _, _, rfl⟩
    · exact ⟨_, _, _, rfl⟩
    · exact ⟨_, _, _, rfl⟩
  · exact ⟨_, _, _, rfl⟩

/-- Without a configuration file the file step only allocates the
configuration. -/
theorem loadConfigFile_noFile (env : Env) (d : SinkData) (h : d.SinkConfigFile = "") :
    loadConfigFile env d = ⟨{ d with SinkConf := some d.conf }, none, []⟩ := by
  simp [loadConfigFile, h]

/-- A successful `processArguments` is a successful file step followed by a
successful merge of the overrides. -/
theorem processArguments_ok (env : Env) (d : SinkData)
    (h : (processArguments env d).err = none) :
    (loadConfigFile env d).err = none
    ∧ (mergeOverrides env (loadConfigFile env d).data (loadConfigFile env d).data.conf).err = none
    ∧ (processArguments env d).data.conf
        = (mergeOverrides env (loadConfigFile env d).data (loadConfigFile env d).data.conf).conf := by
  unfold processArguments at h ⊢
  cases hL : (loadConfigFile env d).err with
  | some e => simp [hL] at h
  | none =>
    simp only [hL] at h ⊢
    exact ⟨trivial, h, rfl⟩

set_option maxHeartbeats 4000000 in
/-- The result of lines 57-84, field by field. -/
theorem mergeIdentity_eq (d : SinkData) (c : SinkConfig) :
    mergeIdentity d c = { c with
      Tenant := if d.Tenant ≠ "" then d.Tenant else c.Tenant
      Namespace := if d.Namespace ≠ "" then d.Namespace else c.Namespace
      Name := if d.Name ≠ "" then d.Name else c.Name
      ClassName := if d.ClassName ≠ "" then d.ClassName else c.ClassName
      ProcessingGuarantees :=
        if d.ProcessingGuarantees ≠ "" then d.ProcessingGuarantees else c.ProcessingGuarantees
      RetainOrdering := if d.RetainOrdering then d.RetainOrdering else c.RetainOrdering
      Inputs := if d.Inputs ≠ "" then strings.Split d.Inputs ',' else c.Inputs } := by
  unfold mergeIdentity
  split_ifs <;> rfl

/-- The result of lines 104-120, field by field. -/
theorem mergeSubscription_eq (d : SinkData) (c : SinkConfig) :
    mergeSubscription d c = { c with
      SourceSubscriptionName := if d.SubsName ≠ "" then d.SubsName else c.SourceSubscriptionName
      SourceSubscriptionPosition :=
        if d.SubsPosition ≠ "" then d.SubsPosition else c.SourceSubscriptionPosition
      TopicsPattern := if d.TopicsPattern ≠ "" then Ref.field else c.TopicsPattern
      Parallelism := if d.Parallelism ≠ 0 then d.Parallelism else 1 } := by
  unfold mergeSubscription
  split_ifs <;> rfl

/-- The result of lines 126-132, field by field. -/
theorem mergeArchive_eq (env : Env) (d : SinkData) (c : SinkConfig) :
    (mergeArchive env d c).1 = { c with
      Archive := if d.SinkType ≠ "" then (validateSinkType env d.SinkType).1
        else if d.Archive ≠ "" then d.Archive else c.Archive } := by
  unfold mergeArchive
  split_ifs <;> rfl

/-- Lines 134-156 change `Resources` only, and read `Resources` only. -/
theorem mergeResources_eq (env : Env) (d : SinkData) (c : SinkConfig) :
    mergeResources env d c = { c with Resources := resourcesAfter env d c.Resources } := by
  unfold resourcesAfter mergeResources
  split_ifs <;> rfl

/-- The result of lines 158-168, field by field. -/
theorem mergeTail_eq (env : Env) (d : SinkData) (c : SinkConfig) :
    mergeTail env d c = { c with
      Configs := if d.SinkConfigString ≠ "" then parseConfigs env d.SinkConfigString else c.Configs
      AutoAck := if d.AutoAck then d.AutoAck else c.AutoAck
      TimeoutMs := if d.TimeoutMs ≠ 0 then Ref.field else c.TimeoutMs } := by
  unfold mergeTail
  split_ifs <;> rfl

/-- A successful serde step changes `TopicToSerdeClassName` only, and not
even that when the override string is empty. -/
theorem mergeSerde_ok (env : Env) (d : SinkData) (c c2 : SinkConfig)
    (h : mergeSerde env d c = .ok c2) :
    ∃ m, c2 = { c with TopicToSerdeClassName := m }
      ∧ (d.CustomSerdeInputString = "" → m = c.TopicToSerdeClassName)
      ∧ (d.CustomSerdeInputString ≠ "" →
          ∃ x, env.jsonUnmarshalStrings d.CustomSerdeInputString = .ok x ∧ m = x) := by
  unfold mergeSerde at h
  split_ifs at h with hs
  · split at h
    · cases h
    · rename_i x hx
      cases h
      exact ⟨x, rfl, fun h0 => absurd h0 hs, fun _ => ⟨x, hx, rfl⟩⟩
  · cases h
    have hs0 : d.CustomSerdeInputString = "" := not_not.mp hs
    exact ⟨c.TopicToSerdeClassName, rfl, fun _ => rfl, fun h0 => absurd hs0 h0⟩

/-- A successful schema step changes `TopicToSchemaType` only, and not even
that when the override string is empty. -/
theorem mergeSchema_ok (env : Env) (d : SinkData) (c c2 : SinkConfig)
    (h : mergeSchema env d c = .ok c2) :
    ∃ m, c2 = { c with TopicToSchemaType := m }
      ∧ (d.CustomSchemaInputString = "" → m = c.TopicToSchemaType)
      ∧ (d.CustomSchemaInputString ≠ "" →
          ∃ x, env.jsonUnmarshalStrings d.CustomSchemaInputString = .ok x ∧ m = x) := by
  unfold mergeSchema at h
  split_ifs at h with hs
  · split at h
    · cases h
    · rename_i x hx
      cases h
      exact ⟨x, rfl, fun h0 => absurd h0 hs, fun _ => ⟨x, hx, rfl⟩⟩
  · cases h
    have hs0 : d.CustomSchemaInputString = "" := not_not.mp hs
    exact ⟨c.TopicToSchemaType, rfl, fun _ => rfl, fun h0 => absurd hs0 h0⟩

/-- A successful merge went through every step: both decoders succeeded, the
packaging overrides did not conflict, and the configuration is the result of
the last step. -/
theorem mergeOverrides_ok (env : Env) (d : SinkData) (c : SinkConfig)
    (h : (mergeOverrides env d c).err = none) :
    ∃ c2 c3, mergeSerde env d (mergeIdentity d c) = .ok c2
      ∧ mergeSchema env d c2 = .ok c3
      ∧ ¬ (d.Archive ≠ "" ∧ d.SinkType ≠ "")
      ∧ (mergeOverrides env d c).conf
          = mergeTail env d (mergeResources env d (mergeArchive env d (mergeSubscription d c3)).1)
      ∧ (mergeOverrides env d c).trace = (mergeArchive env d (mergeSubscription d c3)).2 := by
  cases h2 : mergeSerde env d (mergeIdentity d c) with
  | error e => simp [mergeOverrides, h2] at h
  | ok c2 =>
    cases h3 : mergeSchema env d c2 with
    | error e => simp [mergeOverrides, h2, h3] at h
    | ok c3 =>
      by_cases hc : d.Archive ≠ "" ∧ d.SinkType ≠ ""
      · simp [mergeOverrides, h2, h3, hc] at h
      · refine ⟨c2, c3, rfl, h3, hc, ?_, ?_⟩ <;>
          simp only [mergeOverrides, h2, h3, hc, if_false]

/-- The parallelism of a successfully merged configuration. -/
theorem mergeOverrides_Parallelism (env : Env) (d : SinkData) (c : SinkConfig)
    (h : (mergeOverrides env d c).err = none) :
    (mergeOverrides env d c).conf.Parallelism
      = if d.Parallelism ≠ 0 then d.Parallelism else 1 := by
  obtain ⟨c2, c3, -, -, -, hconf, -⟩ := mergeOverrides_ok env d c h
  rw [hconf, mergeTail_eq, mergeResources_eq, mergeArchive_eq, mergeSubscription_eq]

/-- The parallelism of the configuration after a successful
`processArguments`, in terms of the override the caller passed. -/
theorem processArguments_Parallelism (env : Env) (d : SinkData)
    (h : (processArguments env d).err = none) :
    (processArguments env d).data.conf.Parallelism
      = if d.Parallelism ≠ 0 then d.Parallelism else 1 := by
  obtain ⟨-, hm, hconf⟩ := processArguments_ok env d h
  obtain ⟨tp, tm, conf, hL⟩ := loadConfigFile_data env d
  rw [hconf, mergeOverrides_Parallelism env _ _ hm, hL]

/-- The file step calls the file system and the YAML decoder only. -/
theorem loadConfigFile_trace (env : Env) (d : SinkData) :
    ∀ e ∈ (loadConfigFile env d).trace,
      (∃ p, e = Event.ReadFile p) ∨ (∃ s, e = Event.Unmarshal s) := by
  unfold loadConfigFile
  split_ifs with h
  · split
    · dsimp only
      split <;> simp
    · simp
    · simp
  · simp

/-- When the file step changes the `TopicsPattern` override, it wrote it
through the pointer of the configuration, which still points there. -/
theorem loadConfigFile_TopicsPattern (env : Env) (d : SinkData) :
    (loadConfigFile env d).data.TopicsPattern = d.TopicsPattern
    ∨ (loadConfigFile env d).data.conf.TopicsPattern = Ref.field := by
  unfold loadConfigFile
  split_ifs with h
  · split
    · rename_i content hr
      have key : ∀ (old : Ref String) (new : Option String) (cur : String),
          old.written new cur = cur ∨ old.stored new = Ref.field := by
        intro old new cur
        cases old <;> cases new <;> simp [Ref.written, Ref.stored]
      dsimp only
      split <;> exact key _ _ _
    · exact Or.inl rfl
    · exact Or.inl rfl
  · exact Or.inl rfl

/-- When the file step changes the `TimeoutMs` override, it wrote it through
the pointer of the configuration, which still points there. -/
theorem loadConfigFile_TimeoutMs (env : Env) (d : SinkData) :
    (loadConfigFile env d).data.TimeoutMs = d.TimeoutMs
    ∨ (loadConfigFile env d).data.conf.TimeoutMs = Ref.field := by
  unfold loadConfigFile
  split_ifs with h
  · split
    · rename_i content hr
      have key : ∀ (old : Ref Int) (new : Option Int) (cur : Int),
          old.written new cur = cur ∨ old.stored new = Ref.field := by
        intro old new cur
        cases old <;> cases new <;> simp [Ref.written, Ref.stored]
      dsimp only
      split <;> exact key _ _ _
    · exact Or.inl rfl
    · exact Or.inl rfl
  · exact Or.inl rfl

/-! ## Parallelism (C1, C4, C5) -/

/-- C1, counterexample: a parallelism override of `-3` on the empty base is
merged without error and leaves `SinkConf.Parallelism` at `-3`, which is not
`>= 1`. -/
theorem processArguments_parallelism_negative :
    (processArguments demoEnv { SinkData.zero with Parallelism := -3 }).err = none
    ∧ ¬ 1 ≤ (processArguments demoEnv
        { SinkData.zero with Parallelism := -3 }).data.conf.Parallelism := by
  decide

/-- C1, amended: whenever `processArguments` returns without error, the merged
`SinkConf.Parallelism` is `>= 1` for every parallelism override that is not
negative, and is the override itself for a negative one. -/
theorem processArguments_parallelism_ge_one (env : Env) (d : SinkData)
    (h : (processArguments env d).err = none) :
    (0 ≤ d.Parallelism → 1 ≤ (processArguments env d).data.conf.Parallelism)
    ∧ (d.Parallelism < 0 → (processArguments env d).data.conf.Parallelism = d.Parallelism) := by
  rw [processArguments_Parallelism env d h]
  constructor
  · intro h0
    split_ifs with hp
    · omega
    · exact le_refl 1
  · intro h0
    have hp : d.Parallelism ≠ 0 := by omega
    simp [hp]

/-- Witness of `processArguments_parallelism_ge_one`: the override `4` on the
empty base. -/
theorem processArguments_parallelism_ge_one_witness :
    1 ≤ (processArguments demoEnv { SinkData.zero with Parallelism := 4 }).data.conf.Parallelism :=
  (processArguments_parallelism_ge_one demoEnv { SinkData.zero with Parallelism := 4 }
    (by decide)).1 (by decide)

/-- C4, counterexample: the base loaded from a configuration file with
parallelism `5`, merged with a parallelism override of `0`, ends with
parallelism `1`, not `5`. -/
theorem processArguments_parallelism_file_lost :
    (loadConfigFile demoEnv
        { SinkData.zero with SinkConfigFile := "p5.yaml" }).data.conf.Parallelism = 5
    ∧ (processArguments demoEnv { SinkData.zero with SinkConfigFile := "p5.yaml" }).err = none
    ∧ (processArguments demoEnv
        { SinkData.zero with SinkConfigFile := "p5.yaml" }).data.conf.Parallelism ≠ 5 := by
  decide

/-- C4, amended: with a parallelism override of `0`, a successful
`processArguments` sets the merged parallelism to `1` whatever the base held,
so it equals the base parallelism exactly when that is `1`. -/
theorem processArguments_parallelism_zero_override (env : Env) (d : SinkData)
    (h : (processArguments env d).err = none) (h0 : d.Parallelism = 0) :
    (processArguments env d).data.conf.Parallelism = 1
    ∧ ((processArguments env d).data.conf.Parallelism
          = (loadConfigFile env d).data.conf.Parallelism
        ↔ (loadConfigFile env d).data.conf.Parallelism = 1) := by
  have hp : (processArguments env d).data.conf.Parallelism = 1 := by
    rw [processArguments_Parallelism env d h]
    simp [h0]
  refine ⟨hp, ?_⟩
  rw [hp]
  exact eq_comm

/-- Witness of `processArguments_parallelism_zero_override`: the file with
parallelism `5` and no parallelism override. -/
theorem processArguments_parallelism_zero_override_witness :
    (processArguments demoEnv
        { SinkData.zero with SinkConfigFile := "p5.yaml" }).data.conf.Parallelism = 1 :=
  (processArguments_parallelism_zero_override demoEnv
    { SinkData.zero with SinkConfigFile := "p5.yaml" } (by decide) (by decide)).1

/-- C5: after a successful `processArguments` the merged parallelism is
exactly `1` when the parallelism override is `0`, and exactly the override
when it is not `0`. -/
theorem processArguments_parallelism_exact (env : Env) (d : SinkData)
    (h : (processArguments env d).err = none) :
    (d.Parallelism = 0 → (processArguments env d).data.conf.Parallelism = 1)
    ∧ (d.Parallelism ≠ 0 → (processArguments env d).data.conf.Parallelism = d.Parallelism) := by
  rw [processArguments_Parallelism env d h]
  constructor
  · intro h0
    simp [h0]
  · intro h0
    simp [h0]

/-- Witness of `processArguments_parallelism_exact`: the override `7` onto a
base that held parallelism `3`. -/
theorem processArguments_parallelism_exact_witness :
    (processArguments demoEnv { SinkData.zero with
        Parallelism := 7,
        SinkConf := some { SinkConfig.zero with Parallelism := 3 } }).data.conf.Parallelism = 7 :=
  (processArguments_parallelism_exact demoEnv { SinkData.zero with
      Parallelism := 7,
      SinkConf := some { SinkConfig.zero with Parallelism := 3 } } (by decide)).2 (by decide)

/-- `processArguments` stops after a failed file step. -/
theorem processArguments_of_load_err (env : Env) (d : SinkData) (e : String)
    (h : (loadConfigFile env d).err = some e) :
    processArguments env d = ⟨(loadConfigFile env d).data, some e, (loadConfigFile env d).trace⟩ := by
  simp only [processArguments, h]

/-- After a successful file step `processArguments` is the merge of the
overrides onto the loaded configuration. -/
theorem processArguments_of_load_ok (env : Env) (d : SinkData)
    (h : (loadConfigFile env d).err = none) :
    processArguments env d =
      ⟨(loadConfigFile env d).data.withConf
          (mergeOverrides env (loadConfigFile env d).data (loadConfigFile env d).data.conf).conf,
        (mergeOverrides env (loadConfigFile env d).data (loadConfigFile env d).data.conf).err,
        (loadConfigFile env d).trace
          ++ (mergeOverrides env (loadConfigFile env d).data
                (loadConfigFile env d).data.conf).trace⟩ := by
  simp only [processArguments, h, SinkData.withConf]

/-- When no file is decoded, the file step only allocates the configuration. -/
theorem loadConfigFile_not_read (env : Env) (d : SinkData)
    (h : d.SinkConfigFile = "" ∨ ∀ content, env.ReadFile d.SinkConfigFile ≠ .ok content) :
    (loadConfigFile env d).data = { d with SinkConf := some d.conf } := by
  unfold loadConfigFile
  split_ifs with hf
  · split
    · rename_i content hr
      rcases h with h | h
      · exact absurd h hf
      · exact absurd hr (h content)
    · rfl
    · rfl
  · rfl

/-- The serde step succeeds when its override string is empty or decodes. -/
theorem mergeSerde_total (env : Env) (d : SinkData) (c : SinkConfig)
    (h : d.CustomSerdeInputString ≠ "" →
      ∃ m, env.jsonUnmarshalStrings d.CustomSerdeInputString = .ok m) :
    ∃ c2, mergeSerde env d c = .ok c2 := by
  unfold mergeSerde
  split_ifs with hs
  · obtain ⟨m, hm⟩ := h hs
    simp [hm]
  · exact ⟨c, rfl⟩

/-- The schema step succeeds when its override string is empty or decodes. -/
theorem mergeSchema_total (env : Env) (d : SinkData) (c : SinkConfig)
    (h : d.CustomSchemaInputString ≠ "" →
      ∃ m, env.jsonUnmarshalStrings d.CustomSchemaInputString = .ok m) :
    ∃ c2, mergeSchema env d c = .ok c2 := by
  unfold mergeSchema
  split_ifs with hs
  · obtain ⟨m, hm⟩ := h hs
    simp [hm]
  · exact ⟨c, rfl⟩

/-- The serde step fails with the decoder error on a string that does not
decode. -/
theorem mergeSerde_invalid (env : Env) (d : SinkData) (c : SinkConfig) (e : String)
    (hne : d.CustomSerdeInputString ≠ "")
    (hbad : env.jsonUnmarshalStrings d.CustomSerdeInputString = .error e) :
    mergeSerde env d c = .error e := by
  simp [mergeSerde, hne, hbad]

/-- The schema step fails with the decoder error on a string that does not
decode. -/
theorem mergeSchema_invalid (env : Env) (d : SinkData) (c : SinkConfig) (e : String)
    (hne : d.CustomSchemaInputString ≠ "")
    (hbad : env.jsonUnmarshalStrings d.CustomSchemaInputString = .error e) :
    mergeSchema env d c = .error e := by
  simp [mergeSchema, hne, hbad]

/-- With both packaging overrides set and both decoders passing, the merge
stops at line 123, after lines 57-120 and before the resolver. -/
theorem mergeOverrides_conflict (env : Env) (d : SinkData) (c : SinkConfig)
    (hA : d.Archive ≠ "") (hT : d.SinkType ≠ "")
    (hserde : d.CustomSerdeInputString ≠ "" →
      ∃ m, env.jsonUnmarshalStrings d.CustomSerdeInputString = .ok m)
    (hschema : d.CustomSchemaInputString ≠ "" →
      ∃ m, env.jsonUnmarshalStrings d.CustomSchemaInputString = .ok m) :
    (mergeOverrides env d c).err = some "Cannot specify both archive and sink-type"
    ∧ (mergeOverrides env d c).trace = []
    ∧ (mergeOverrides env d c).conf.Archive = c.Archive := by
  obtain ⟨c2, h2⟩ := mergeSerde_total env d (mergeIdentity d c) hserde
  obtain ⟨c3, h3⟩ := mergeSchema_total env d c2 hschema
  obtain ⟨m, rfl, -, -⟩ := mergeSerde_ok env d _ _ h2
  obtain ⟨m2, rfl, -, -⟩ := mergeSchema_ok env d _ _ h3
  simp only [mergeOverrides, h2, h3]
  simp only [hA, hT, ne_eq, not_false_eq_true, and_self, if_true]
  refine ⟨trivial, trivial, ?_⟩
  rw [mergeSubscription_eq, mergeIdentity_eq]

/-- With every resource override zero, lines 134-156 change nothing. -/
theorem resourcesAfter_zero (env : Env) (d : SinkData) (r : Option Resources)
    (hc : d.CPU.isZero = true) (hd : d.Disk = 0) (hr : d.RAM = 0) :
    resourcesAfter env d r = r := by
  simp [resourcesAfter, mergeResources, hc, hd, hr]

/-- The configuration of a successful merge, field by field: `m` and `m2` are
the two decoded mappings, or the mappings of `c` when the override strings
are empty. -/
theorem mergeOverrides_conf (env : Env) (d : SinkData) (c : SinkConfig)
    (h : (mergeOverrides env d c).err = none) :
    ∃ m m2,
      (d.CustomSerdeInputString = "" → m = c.TopicToSerdeClassName)
      ∧ (d.CustomSerdeInputString ≠ "" →
          ∃ x, env.jsonUnmarshalStrings d.CustomSerdeInputString = .ok x ∧ m = x)
      ∧ (d.CustomSchemaInputString = "" → m2 = c.TopicToSchemaType)
      ∧ (d.CustomSchemaInputString ≠ "" →
          ∃ x, env.jsonUnmarshalStrings d.CustomSchemaInputString = .ok x ∧ m2 = x)
      ∧ (mergeOverrides env d c).conf =
        { TopicsPattern := if d.TopicsPattern ≠ "" then Ref.field else c.TopicsPattern
          Resources := resourcesAfter env d c.Resources
          TimeoutMs := if d.TimeoutMs ≠ 0 then Ref.field else c.TimeoutMs
          RetainOrdering := if d.RetainOrdering then d.RetainOrdering else c.RetainOrdering
          AutoAck := if d.AutoAck then d.AutoAck else c.AutoAck
          Parallelism := if d.Parallelism ≠ 0 then d.Parallelism else 1
          Tenant := if d.Tenant ≠ "" then d.Tenant else c.Tenant
          Namespace := if d.Namespace ≠ "" then d.Namespace else c.Namespace
          Name := if d.Name ≠ "" then d.Name else c.Name
          ClassName := if d.ClassName ≠ "" then d.ClassName else c.ClassName
          Archive := if d.SinkType ≠ "" then (validateSinkType env d.SinkType).1
            else if d.Archive ≠ "" then d.Archive else c.Archive
          ProcessingGuarantees :=
            if d.ProcessingGuarantees ≠ "" then d.ProcessingGuarantees
            else c.ProcessingGuarantees
          SourceSubscriptionName :=
            if d.SubsName ≠ "" then d.SubsName else c.SourceSubscriptionName
          SourceSubscriptionPosition :=
            if d.SubsPosition ≠ "" then d.SubsPosition else c.SourceSubscriptionPosition
          Inputs := if d.Inputs ≠ "" then strings.Split d.Inputs ',' else c.Inputs
          TopicToSerdeClassName := m
          TopicToSchemaType := m2
          Configs :=
            if d.SinkConfigString ≠ "" then parseConfigs env d.SinkConfigString
            else c.Configs } := by
  obtain ⟨c2, c3, h2, h3, -, hconf, -⟩ := mergeOverrides_ok env d c h
  obtain ⟨m, rfl, hm0, hm1⟩ := mergeSerde_ok env _ _ _ h2
  obtain ⟨m2, rfl, hm20, hm21⟩ := mergeSchema_ok env _ _ _ h3
  refine ⟨m, m2, ?_, hm1, ?_, hm21, ?_⟩
  · intro h0
    rw [hm0 h0, mergeIdentity_eq]
  · intro h0
    rw [hm20 h0, mergeIdentity_eq]
  · rw [hconf]
    simp only [mergeTail_eq, mergeResources_eq, mergeArchive_eq, mergeSubscription_eq,
      mergeIdentity_eq]

/-! ## Conflicting packaging overrides (C2) -/

/-- C2: when both `Archive` and `SinkType` are set, the configuration file (if
any) decodes and the serde and schema strings (if any) decode,
`processArguments` returns the error "Cannot specify both archive and
sink-type", makes no call beyond those of the file step (so none to the
catalog of `validateSinkType`), and leaves `SinkConf.Archive` at the value
the loaded base had, which is the value held before the call when no file
was decoded. -/
theorem processArguments_conflict (env : Env) (d : SinkData)
    (hA : d.Archive ≠ "") (hT : d.SinkType ≠ "")
    (hfile : (loadConfigFile env d).err = none)
    (hserde : d.CustomSerdeInputString ≠ "" →
      ∃ m, env.jsonUnmarshalStrings d.CustomSerdeInputString = .ok m)
    (hschema : d.CustomSchemaInputString ≠ "" →
      ∃ m, env.jsonUnmarshalStrings d.CustomSchemaInputString = .ok m) :
    (processArguments env d).err = some "Cannot specify both archive and sink-type"
    ∧ (processArguments env d).trace = (loadConfigFile env d).trace
    ∧ Event.GetBuiltInSinks ∉ (processArguments env d).trace
    ∧ (processArguments env d).data.conf.Archive = (loadConfigFile env d).data.conf.Archive
    ∧ ((d.SinkConfigFile = "" ∨ ∀ content, env.ReadFile d.SinkConfigFile ≠ .ok content) →
        (processArguments env d).data.conf.Archive = d.conf.Archive) := by
  obtain ⟨tp, tm, conf, hL⟩ := loadConfigFile_data env d
  have hm := mergeOverrides_conflict env (loadConfigFile env d).data
    (loadConfigFile env d).data.conf (by rw [hL]; exact hA) (by rw [hL]; exact hT)
    (by rw [hL]; exact hserde) (by rw [hL]; exact hschema)
  obtain ⟨herr, htr, harch⟩ := hm
  have htrace : (processArguments env d).trace = (loadConfigFile env d).trace := by
    rw [processArguments_of_load_ok env d hfile]
    simp [htr]
  have hconf : (processArguments env d).data.conf.Archive
      = (loadConfigFile env d).data.conf.Archive := by
    rw [processArguments_of_load_ok env d hfile]
    simpa [SinkData.conf] using harch
  refine ⟨?_, htrace, ?_, hconf, ?_⟩
  · rw [processArguments_of_load_ok env d hfile]
    exact herr
  · rw [htrace]
    intro hmem
    rcases loadConfigFile_trace env d _ hmem with ⟨p, hp⟩ | ⟨s, hs⟩
    · cases hp
    · cases hs
  · intro hnr
    rw [hconf, loadConfigFile_not_read env d hnr]
    rfl

/-- Witness of `processArguments_conflict`: archive `x` with sink type `kafka`
onto a base whose archive is `old.nar`. -/
theorem processArguments_conflict_witness :
    (processArguments demoEnv { SinkData.zero with
        Archive := "x", SinkType := "kafka",
        SinkConf := some { SinkConfig.zero with Archive := "old.nar" } }).err
      = some "Cannot specify both archive and sink-type"
    ∧ (processArguments demoEnv { SinkData.zero with
        Archive := "x", SinkType := "kafka",
        SinkConf := some { SinkConfig.zero with Archive := "old.nar" } }).data.conf.Archive
      = "old.nar" :=
  have h := processArguments_conflict demoEnv { SinkData.zero with
      Archive := "x", SinkType := "kafka",
      SinkConf := some { SinkConfig.zero with Archive := "old.nar" } }
    (by decide) (by decide) (by decide) (fun h => absurd rfl h) (fun h => absurd rfl h)
  ⟨h.1, h.2.2.2.2 (Or.inl rfl)⟩

/-! ## The non-zero-wins law (C3) -/

/-- C3: after a successful `processArguments`, every field other than
parallelism whose override is empty, zero or false has in the merged
configuration the value it had in the base (the configuration left by the
file step): tenant, namespace, name, className, processingGuarantees,
retainOrdering, inputs, topicToSerdeClassName, topicToSchemaType,
subscription name, subscription position, topicsPattern, configs, autoAck,
timeoutMs; archive when both the archive and the sink-type overrides are
empty; resources when the CPU, disk and RAM overrides are all zero. -/
theorem processArguments_nonzero_wins (env : Env) (d : SinkData)
    (h : (processArguments env d).err = none) :
    (d.Tenant = "" →
      (processArguments env d).data.conf.Tenant = (loadConfigFile env d).data.conf.Tenant)
    ∧ (d.Namespace = "" →
      (processArguments env d).data.conf.Namespace = (loadConfigFile env d).data.conf.Namespace)
    ∧ (d.Name = "" →
      (processArguments env d).data.conf.Name = (loadConfigFile env d).data.conf.Name)
    ∧ (d.ClassName = "" →
      (processArguments env d).data.conf.ClassName = (loadConfigFile env d).data.conf.ClassName)
    ∧ (d.ProcessingGuarantees = "" →
      (processArguments env d).data.conf.ProcessingGuarantees
        = (loadConfigFile env d).data.conf.ProcessingGuarantees)
    ∧ (d.RetainOrdering = false →
      (processArguments env d).data.conf.RetainOrdering
        = (loadConfigFile env d).data.conf.RetainOrdering)
    ∧ (d.Inputs = "" →
      (processArguments env d).data.conf.Inputs = (loadConfigFile env d).data.conf.Inputs)
    ∧ (d.CustomSerdeInputString = "" →
      (processArguments env d).data.conf.TopicToSerdeClassName
        = (loadConfigFile env d).data.conf.TopicToSerdeClassName)
    ∧ (d.CustomSchemaInputString = "" →
      (processArguments env d).data.conf.TopicToSchemaType
        = (loadConfigFile env d).data.conf.TopicToSchemaType)
    ∧ (d.SubsName = "" →
      (processArguments env d).data.conf.SourceSubscriptionName
        = (loadConfigFile env d).data.conf.SourceSubscriptionName)
    ∧ (d.SubsPosition = "" →
      (processArguments env d).data.conf.SourceSubscriptionPosition
        = (loadConfigFile env d).data.conf.SourceSubscriptionPosition)
    ∧ (d.TopicsPattern = "" →
      (processArguments env d).data.confVal.TopicsPattern
        = (loadConfigFile env d).data.confVal.TopicsPattern)
    ∧ (d.SinkConfigString = "" →
      (processArguments env d).data.conf.Configs = (loadConfigFile env d).data.conf.Configs)
    ∧ (d.AutoAck = false →
      (processArguments env d).data.conf.AutoAck = (loadConfigFile env d).data.conf.AutoAck)
    ∧ (d.TimeoutMs = 0 →
      (processArguments env d).data.confVal.TimeoutMs
        = (loadConfigFile env d).data.confVal.TimeoutMs)
    ∧ (d.Archive = "" → d.SinkType = "" →
      (processArguments env d).data.conf.Archive = (loadConfigFile env d).data.conf.Archive)
    ∧ (d.CPU.isZero = true → d.Disk = 0 → d.RAM = 0 →
      (processArguments env d).data.conf.Resources
        = (loadConfigFile env d).data.conf.Resources) := by
  obtain ⟨hfile, hm, hc⟩ := processArguments_ok env d h
  obtain ⟨m, m2, hm0, -, hm20, -, hconf⟩ := mergeOverrides_conf env _ _ hm
  have htp := loadConfigFile_TopicsPattern env d
  have htm := loadConfigFile_TimeoutMs env d
  have hd : (processArguments env d).data.TopicsPattern = (loadConfigFile env d).data.TopicsPattern
      ∧ (processArguments env d).data.TimeoutMs = (loadConfigFile env d).data.TimeoutMs := by
    rw [processArguments_of_load_ok env d hfile]
    exact ⟨rfl, rfl⟩
  obtain ⟨hd1, hd2⟩ := hd
  simp only [SinkData.confVal, SinkConfig.view, hd1, hd2]
  rw [hc, hconf]
  obtain ⟨tp, tm, conf, hL⟩ := loadConfigFile_data env d
  rw [hL] at hm0 hm20 htp htm ⊢
  simp only [SinkData.conf] at hm0 hm20 htp htm ⊢
  refine ⟨?_, ?_, ?_, ?_, ?_, ?_, ?_, ?_, ?_, ?_, ?_, ?_, ?_, ?_, ?_, ?_, ?_⟩
  · intro h0; simp [h0]
  · intro h0; simp [h0]
  · intro h0; simp [h0]
  · intro h0; simp [h0]
  · intro h0; simp [h0]
  · intro h0; simp [h0]
  · intro h0; simp [h0]
  · intro h0; exact hm0 h0
  · intro h0; exact hm20 h0
  · intro h0; simp [h0]
  · intro h0; simp [h0]
  · intro h0
    rcases htp with e | e
    · have e2 : tp = "" := e.trans h0
      simp [e2]
    · rw [e]
      by_cases e3 : tp = "" <;> simp [e3, Ref.get]
  · intro h0; simp [h0]
  · intro h0; simp [h0]
  · intro h0
    rcases htm with e | e
    · have e2 : tm = 0 := e.trans h0
      simp [e2]
    · rw [e]
      by_cases e3 : tm = 0 <;> simp [e3, Ref.get]
  · intro h0 h1; simp [h0, h1]
  · intro h0 h1 h2
    exact resourcesAfter_zero env _ _ h0 h1 h2

/-- Witness of `processArguments_nonzero_wins`: a name override onto a base
with tenant `t0`; the tenant stays. -/
theorem processArguments_nonzero_wins_witness :
    (processArguments demoEnv { SinkData.zero with
        Name := "s1",
        SinkConf := some { SinkConfig.zero with Tenant := "t0" } }).data.conf.Tenant = "t0" :=
  (processArguments_nonzero_wins demoEnv { SinkData.zero with
      Name := "s1",
      SinkConf := some { SinkConfig.zero with Tenant := "t0" } } (by decide)).1 rfl

/-! ## Invalid serde and schema strings (C10) -/

/-- The merge stops with the configuration of lines 57-84 when the serde
step fails. -/
theorem mergeOverrides_serde_err (env : Env) (d : SinkData) (c : SinkConfig) (e : String)
    (h : mergeSerde env d (mergeIdentity d c) = .error e) :
    mergeOverrides env d c = ⟨mergeIdentity d c, some e, []⟩ := by
  simp only [mergeOverrides, h]

/-- The merge stops with the configuration of the serde step when the schema
step fails. -/
theorem mergeOverrides_schema_err (env : Env) (d : SinkData) (c c2 : SinkConfig) (e : String)
    (h2 : mergeSerde env d (mergeIdentity d c) = .ok c2)
    (h3 : mergeSchema env d c2 = .error e) :
    mergeOverrides env d c = ⟨c2, some e, []⟩ := by
  simp only [mergeOverrides, h2, h3]

/-- A serde string that does not decode makes the merge fail with the decoder
error, the serde mapping untouched. -/
theorem mergeOverrides_serde_invalid (env : Env) (d : SinkData) (c : SinkConfig) (e : String)
    (hne : d.CustomSerdeInputString ≠ "")
    (hbad : env.jsonUnmarshalStrings d.CustomSerdeInputString = .error e) :
    (mergeOverrides env d c).err = some e
    ∧ (mergeOverrides env d c).conf.TopicToSerdeClassName = c.TopicToSerdeClassName := by
  rw [mergeOverrides_serde_err env d c e (mergeSerde_invalid env d _ e hne hbad), mergeIdentity_eq]
  exact ⟨rfl, rfl⟩

/-- A schema string that does not decode makes the merge fail, with the
decoder error when the serde step passes, the schema mapping untouched. -/
theorem mergeOverrides_schema_invalid (env : Env) (d : SinkData) (c : SinkConfig) (e : String)
    (hne : d.CustomSchemaInputString ≠ "")
    (hbad : env.jsonUnmarshalStrings d.CustomSchemaInputString = .error e) :
    (mergeOverrides env d c).err ≠ none
    ∧ ((d.CustomSerdeInputString ≠ "" →
          ∃ m, env.jsonUnmarshalStrings d.CustomSerdeInputString = .ok m) →
        (mergeOverrides env d c).err = some e)
    ∧ (mergeOverrides env d c).conf.TopicToSchemaType = c.TopicToSchemaType := by
  cases h2 : mergeSerde env d (mergeIdentity d c) with
  | error e2 =>
    rw [mergeOverrides_serde_err env d c e2 h2, mergeIdentity_eq]
    refine ⟨by simp, ?_, rfl⟩
    intro hs
    obtain ⟨c2, hc2⟩ := mergeSerde_total env d (mergeIdentity d c) hs
    rw [hc2] at h2
    cases h2
  | ok c2 =>
    rw [mergeOverrides_schema_err env d c c2 e h2 (mergeSchema_invalid env d c2 e hne hbad)]
    obtain ⟨m, rfl, -, -⟩ := mergeSerde_ok env _ _ _ h2
    rw [mergeIdentity_eq]
    exact ⟨by simp, fun _ => rfl, rfl⟩

/-- C10, counterexample: the serde string `null` is not empty and is no JSON
object. The decoder accepts it and leaves a `nil` map, so `processArguments`
returns no error and stores the `nil` map over the serde mapping of the
base. -/
theorem processArguments_null_serde :
    demoEnv.jsonUnmarshalStrings "null" = .ok none
    ∧ (processArguments demoEnv { SinkData.zero with
        CustomSerdeInputString := "null",
        SinkConf := some { SinkConfig.zero with
          TopicToSerdeClassName := some [("t0", "c0")] } }).err = none
    ∧ (processArguments demoEnv { SinkData.zero with
        CustomSerdeInputString := "null",
        SinkConf := some { SinkConfig.zero with
          TopicToSerdeClassName := some [("t0", "c0")] } }).data.conf.TopicToSerdeClassName
      = none
    ∧ (processArguments demoEnv { SinkData.zero with
        CustomSerdeInputString := "null",
        SinkConf := some { SinkConfig.zero with
          TopicToSerdeClassName := some [("t0", "c0")] } }).data.conf.TopicToSerdeClassName
      ≠ some [("t0", "c0")] :=
  ⟨rfl, by decide, by decide, by decide⟩

/-- C10, amended: when `CustomSerdeInputString` is not empty and the JSON
decoder returns an error on it, `processArguments` returns an error (the
decoder error when the file step passes) and `topicToSerdeClassName` is as
the file step left it, so as it was before the call when no file was
decoded; the same holds for `CustomSchemaInputString` and
`topicToSchemaType` (the decoder error is returned when the file step and
the serde step pass). A string the decoder accepts is not rejected: a
successful `processArguments` stores the map the decoder left, which is the
`nil` map for the JSON literal `null`. -/
theorem processArguments_invalid_json (env : Env) (d : SinkData) :
    (∀ e, d.CustomSerdeInputString ≠ "" →
      env.jsonUnmarshalStrings d.CustomSerdeInputString = .error e →
      (processArguments env d).err ≠ none
      ∧ ((loadConfigFile env d).err = none → (processArguments env d).err = some e)
      ∧ (processArguments env d).data.conf.TopicToSerdeClassName
          = (loadConfigFile env d).data.conf.TopicToSerdeClassName
      ∧ ((d.SinkConfigFile = "" ∨ ∀ content, env.ReadFile d.SinkConfigFile ≠ .ok content) →
          (processArguments env d).data.conf.TopicToSerdeClassName
            = d.conf.TopicToSerdeClassName))
    ∧ (∀ e, d.CustomSchemaInputString ≠ "" →
      env.jsonUnmarshalStrings d.CustomSchemaInputString = .error e →
      (processArguments env d).err ≠ none
      ∧ ((loadConfigFile env d).err = none →
          (d.CustomSerdeInputString ≠ "" →
            ∃ m, env.jsonUnmarshalStrings d.CustomSerdeInputString = .ok m) →
          (processArguments env d).err = some e)
      ∧ (processArguments env d).data.conf.TopicToSchemaType
          = (loadConfigFile env d).data.conf.TopicToSchemaType
      ∧ ((d.SinkConfigFile = "" ∨ ∀ content, env.ReadFile d.SinkConfigFile ≠ .ok content) →
          (processArguments env d).data.conf.TopicToSchemaType
            = d.conf.TopicToSchemaType))
    ∧ (∀ m, d.CustomSerdeInputString ≠ "" →
      env.jsonUnmarshalStrings d.CustomSerdeInputString = .ok m →
      (processArguments env d).err = none →
      (processArguments env d).data.conf.TopicToSerdeClassName = m)
    ∧ (∀ m, d.CustomSchemaInputString ≠ "" →
      env.jsonUnmarshalStrings d.CustomSchemaInputString = .ok m →
      (processArguments env d).err = none →
      (processArguments env d).data.conf.TopicToSchemaType = m) := by
  obtain ⟨tp, tm, conf, hL⟩ := loadConfigFile_data env d
  refine ⟨?_, ?_, ?_, ?_⟩
  · intro e hne hbad
    have key : (processArguments env d).err ≠ none
        ∧ ((loadConfigFile env d).err = none → (processArguments env d).err = some e)
        ∧ (processArguments env d).data.conf.TopicToSerdeClassName
            = (loadConfigFile env d).data.conf.TopicToSerdeClassName := by
      cases hl : (loadConfigFile env d).err with
      | some e0 =>
        rw [processArguments_of_load_err env d e0 hl]
        exact ⟨by simp, by simp, rfl⟩
      | none =>
        obtain ⟨h1, h2⟩ := mergeOverrides_serde_invalid env (loadConfigFile env d).data
          (loadConfigFile env d).data.conf e (by rw [hL]; exact hne) (by rw [hL]; exact hbad)
        rw [processArguments_of_load_ok env d hl]
        refine ⟨by simp [h1], fun _ => h1, ?_⟩
        simpa [SinkData.conf, SinkData.withConf] using h2
    refine ⟨key.1, key.2.1, key.2.2, ?_⟩
    intro hnr
    rw [key.2.2, loadConfigFile_not_read env d hnr]
    rfl
  · intro e hne hbad
    have key : (processArguments env d).err ≠ none
        ∧ ((loadConfigFile env d).err = none →
            (d.CustomSerdeInputString ≠ "" →
              ∃ m, env.jsonUnmarshalStrings d.CustomSerdeInputString = .ok m) →
            (processArguments env d).err = some e)
        ∧ (processArguments env d).data.conf.TopicToSchemaType
            = (loadConfigFile env d).data.conf.TopicToSchemaType := by
      cases hl : (loadConfigFile env d).err with
      | some e0 =>
        rw [processArguments_of_load_err env d e0 hl]
        exact ⟨by simp, by simp, rfl⟩
      | none =>
        obtain ⟨h1, h2, h3⟩ := mergeOverrides_schema_invalid env (loadConfigFile env d).data
          (loadConfigFile env d).data.conf e (by rw [hL]; exact hne) (by rw [hL]; exact hbad)
        rw [processArguments_of_load_ok env d hl]
        refine ⟨h1, fun _ hs => h2 (by rw [hL]; exact hs), ?_⟩
        simpa [SinkData.conf, SinkData.withConf] using h3
    refine ⟨key.1, key.2.1, key.2.2, ?_⟩
    intro hnr
    rw [key.2.2, loadConfigFile_not_read env d hnr]
    rfl
  · intro m hne hok h
    obtain ⟨-, hm, hc⟩ := processArguments_ok env d h
    obtain ⟨m1, m2, -, hm1, -, -, hconf⟩ := mergeOverrides_conf env _ _ hm
    obtain ⟨x, hx, hmx⟩ := hm1 (by rw [hL]; exact hne)
    rw [hL] at hx
    have e : Except.ok x = Except.ok m := hx.symm.trans hok
    cases e
    rw [hc, hconf]
    exact hmx
  · intro m hne hok h
    obtain ⟨-, hm, hc⟩ := processArguments_ok env d h
    obtain ⟨m1, m2, -, -, -, hm21, hconf⟩ := mergeOverrides_conf env _ _ hm
    obtain ⟨x, hx, hmx⟩ := hm21 (by rw [hL]; exact hne)
    rw [hL] at hx
    have e : Except.ok x = Except.ok m := hx.symm.trans hok
    cases e
    rw [hc, hconf]
    exact hmx

/-- Witness of `processArguments_invalid_json`: a serde string that is not
JSON, onto a base that holds a serde mapping. -/
theorem processArguments_invalid_json_witness :
    (processArguments demoEnv { SinkData.zero with
        CustomSerdeInputString := "\x7bnot valid json",
        SinkConf := some { SinkConfig.zero with
          TopicToSerdeClassName := some [("t0", "c0")] } }).err = some "invalid character"
    ∧ (processArguments demoEnv { SinkData.zero with
        CustomSerdeInputString := "\x7bnot valid json",
        SinkConf := some { SinkConfig.zero with
          TopicToSerdeClassName := some [("t0", "c0")] } }).data.conf.TopicToSerdeClassName
      = some [("t0", "c0")] :=
  have h := (processArguments_invalid_json demoEnv { SinkData.zero with
      CustomSerdeInputString := "\x7bnot valid json",
      SinkConf := some { SinkConfig.zero with
        TopicToSerdeClassName := some [("t0", "c0")] } }).1 "invalid character"
    (by decide) rfl
  ⟨h.2.1 (by decide), h.2.2.2 (Or.inl rfl)⟩

/-! ## Tenant and namespace defaulting (C7, C8) -/

/-- C7: `processNamespaceCmd` is all-or-nothing. When the tenant or the
namespace is empty, both become the defaults (a supplied counterpart is
discarded) and no other field changes; when both are set, nothing changes. -/
theorem processNamespaceCmd_all_or_nothing (env : Env) (d : SinkData) :
    ((d.Tenant = "" ∨ d.Namespace = "") →
      (processNamespaceCmd env d).Tenant = env.PublicTenant
      ∧ (processNamespaceCmd env d).Namespace = env.DefaultNamespace
      ∧ processNamespaceCmd env d
          = { d with Tenant := env.PublicTenant, Namespace := env.DefaultNamespace })
    ∧ ((d.Tenant ≠ "" ∧ d.Namespace ≠ "") → processNamespaceCmd env d = d) := by
  constructor
  · intro h
    simp only [processNamespaceCmd, h, if_true, and_self]
  · intro h
    have h2 : ¬ (d.Tenant = "" ∨ d.Namespace = "") := by
      intro h3
      rcases h3 with h3 | h3
      · exact h.1 h3
      · exact h.2 h3
    simp only [processNamespaceCmd, h2, if_false]

/-- Witness of `processNamespaceCmd_all_or_nothing`: an empty tenant with
namespace `ns1` ends as `public` and `default`; tenant `t1` with namespace
`ns1` is kept. -/
theorem processNamespaceCmd_all_or_nothing_witness :
    processNamespaceCmd demoEnv { SinkData.zero with Namespace := "ns1" }
      = { SinkData.zero with Tenant := "public", Namespace := "default" }
    ∧ processNamespaceCmd demoEnv { SinkData.zero with Tenant := "t1", Namespace := "ns1" }
      = { SinkData.zero with Tenant := "t1", Namespace := "ns1" } :=
  ⟨((processNamespaceCmd_all_or_nothing demoEnv
      { SinkData.zero with Namespace := "ns1" }).1 (Or.inl rfl)).2.2,
   (processNamespaceCmd_all_or_nothing demoEnv
      { SinkData.zero with Tenant := "t1", Namespace := "ns1" }).2 (by decide)⟩

/-- C8: `checkArgsForUpdate` defaults each field on its own. The tenant
becomes the default tenant when it was empty and is otherwise kept, the
namespace becomes the default namespace when it was empty and is otherwise
kept, each whatever the other is; no other field changes. -/
theorem checkArgsForUpdate_independent (env : Env) (c : SinkConfig) :
    (c.Tenant = "" → (checkArgsForUpdate env c).Tenant = env.PublicTenant)
    ∧ (c.Tenant ≠ "" → (checkArgsForUpdate env c).Tenant = c.Tenant)
    ∧ (c.Namespace = "" → (checkArgsForUpdate env c).Namespace = env.DefaultNamespace)
    ∧ (c.Namespace ≠ "" → (checkArgsForUpdate env c).Namespace = c.Namespace)
    ∧ checkArgsForUpdate env c
        = { c with Tenant := (checkArgsForUpdate env c).Tenant,
                   Namespace := (checkArgsForUpdate env c).Namespace } := by
  unfold checkArgsForUpdate
  by_cases ht : c.Tenant = "" <;> by_cases hn : c.Namespace = "" <;> simp [ht, hn]

/-- Witness of `checkArgsForUpdate_independent`: an empty tenant next to
namespace `ns1` gets the default tenant and keeps `ns1`. -/
theorem checkArgsForUpdate_independent_witness :
    (checkArgsForUpdate demoEnv { SinkConfig.zero with Namespace := "ns1" }).Tenant = "public"
    ∧ (checkArgsForUpdate demoEnv { SinkConfig.zero with Namespace := "ns1" }).Namespace
        = "ns1" :=
  ⟨(checkArgsForUpdate_independent demoEnv
      { SinkConfig.zero with Namespace := "ns1" }).1 rfl,
   (checkArgsForUpdate_independent demoEnv
      { SinkConfig.zero with Namespace := "ns1" }).2.2.2.1 (by decide)⟩

/-! ## The validator (C9) -/

/-- C9: `validateSinkConfigs` checks in order and stops at the first failure.
(1) An empty archive gives "Sink archive not specified", whatever the name,
with no call to the inference collaborator and the configuration unchanged.
(2) Otherwise, when the archive of the inferred configuration is a supported
package URL with the builtin prefix and the file does not exist, the error
is "sink Archive ... does not exist". (3) Otherwise an empty name after
inference gives "sink name not specified". (4) Otherwise there is no error.
No error is returned in case (4) only. -/
theorem validateSinkConfigs_order (env : Env) (c : SinkConfig) :
    (c.Archive = "" →
      validateSinkConfigs env c = ⟨c, some "Sink archive not specified", []⟩)
    ∧ (c.Archive ≠ "" →
        (env.IsPackageURLSupported (env.InferMissingSinkeArguments c).Archive
          && strings.HasPrefix (env.InferMissingSinkeArguments c).Archive env.BUILTIN) = true →
        env.IsFileExist (env.InferMissingSinkeArguments c).Archive = false →
        (validateSinkConfigs env c).err = some ("sink Archive "
          ++ (env.InferMissingSinkeArguments c).Archive ++ " does not exist"))
    ∧ (c.Archive ≠ "" →
        ¬ ((env.IsPackageURLSupported (env.InferMissingSinkeArguments c).Archive
            && strings.HasPrefix (env.InferMissingSinkeArguments c).Archive env.BUILTIN) = true
          ∧ env.IsFileExist (env.InferMissingSinkeArguments c).Archive = false) →
        (env.InferMissingSinkeArguments c).Name = "" →
        (validateSinkConfigs env c).err = some "sink name not specified")
    ∧ (c.Archive ≠ "" →
        ¬ ((env.IsPackageURLSupported (env.InferMissingSinkeArguments c).Archive
            && strings.HasPrefix (env.InferMissingSinkeArguments c).Archive env.BUILTIN) = true
          ∧ env.IsFileExist (env.InferMissingSinkeArguments c).Archive = false) →
        (env.InferMissingSinkeArguments c).Name ≠ "" →
        (validateSinkConfigs env c).err = none)
    ∧ ((validateSinkConfigs env c).err = none ↔
        c.Archive ≠ ""
        ∧ ¬ ((env.IsPackageURLSupported (env.InferMissingSinkeArguments c).Archive
            && strings.HasPrefix (env.InferMissingSinkeArguments c).Archive env.BUILTIN) = true
          ∧ env.IsFileExist (env.InferMissingSinkeArguments c).Archive = false)
        ∧ (env.InferMissingSinkeArguments c).Name ≠ "")
    ∧ (c.Archive ≠ "" →
        (validateSinkConfigs env c).conf = env.InferMissingSinkeArguments c
        ∧ (validateSinkConfigs env c).trace.head? = some Event.InferMissingSinkeArguments) := by
  unfold validateSinkConfigs
  by_cases ha : c.Archive = ""
  · simp [ha]
  · by_cases hk : (env.IsPackageURLSupported (env.InferMissingSinkeArguments c).Archive
        && strings.HasPrefix (env.InferMissingSinkeArguments c).Archive env.BUILTIN) = true
    · by_cases hf : env.IsFileExist (env.InferMissingSinkeArguments c).Archive = true
      · by_cases hn : (env.InferMissingSinkeArguments c).Name = "" <;>
          simp [ha, hk, hf, hn]
      · have hf2 : env.IsFileExist (env.InferMissingSinkeArguments c).Archive = false := by
          simpa using hf
        by_cases hn : (env.InferMissingSinkeArguments c).Name = "" <;>
          simp [ha, hk, hf2, hn]
    · by_cases hn : (env.InferMissingSinkeArguments c).Name = "" <;>
        simp [ha, hk, hn]

/-- Witness of `validateSinkConfigs_order`: an empty archive with an empty
name reports the archive; with every archive taken as a package URL, the
archive `builtin://kafka` reports the missing file; the archive
`file:///a.jar` with name `s1` passes. -/
theorem validateSinkConfigs_order_witness :
    validateSinkConfigs demoEnv SinkConfig.zero
      = ⟨SinkConfig.zero, some "Sink archive not specified", []⟩
    ∧ (validateSinkConfigs { demoEnv with IsPackageURLSupported := fun _ => true }
        { SinkConfig.zero with Archive := "builtin://kafka", Name := "s1" }).err
      = some "sink Archive builtin://kafka does not exist"
    ∧ (validateSinkConfigs demoEnv
        { SinkConfig.zero with Archive := "file:///a.jar", Name := "s1" }).err = none :=
  ⟨(validateSinkConfigs_order demoEnv SinkConfig.zero).1 rfl,
   (validateSinkConfigs_order { demoEnv with IsPackageURLSupported := fun _ => true }
      { SinkConfig.zero with Archive := "builtin://kafka", Name := "s1" }).2.1
      (by decide) (by decide) (by decide),
   (validateSinkConfigs_order demoEnv
      { SinkConfig.zero with Archive := "file:///a.jar", Name := "s1" }).2.2.2.1
      (by decide) (by decide) (by decide)⟩

/-! ## Idempotence (C6) -/

/-- The merge reads the overrides of its `SinkData`, not the configuration it
holds. -/
theorem mergeOverrides_withConf (env : Env) (d : SinkData) (x c : SinkConfig) :
    mergeOverrides env (d.withConf x) c = mergeOverrides env d c :=
  rfl

/-- Whether the merge succeeds depends on the overrides only. -/
theorem mergeOverrides_err_indep (env : Env) (d : SinkData) (c c' : SinkConfig)
    (h : (mergeOverrides env d c).err = none) :
    (mergeOverrides env d c').err = none := by
  obtain ⟨c2, c3, h2, h3, hc, -, -⟩ := mergeOverrides_ok env d c h
  obtain ⟨m, -, -, hm⟩ := mergeSerde_ok env _ _ _ h2
  obtain ⟨m2, -, -, hm2⟩ := mergeSchema_ok env _ _ _ h3
  obtain ⟨d2, hd2⟩ := mergeSerde_total env d (mergeIdentity d c')
    (fun hs => (hm hs).imp fun x hx => hx.1)
  obtain ⟨d3, hd3⟩ := mergeSchema_total env d d2
    (fun hs => (hm2 hs).imp fun x hx => hx.1)
  simp only [mergeOverrides, hd2, hd3, hc, if_false]

/-- Lines 134-156 on a configuration that holds resources. -/
theorem resourcesAfter_some (env : Env) (d : SinkData) (r : Resources) :
    resourcesAfter env d (some r) = some
      ⟨if d.CPU.isZero = true then r.CPU else d.CPU,
       if d.Disk ≠ 0 then d.Disk else r.Disk,
       if d.RAM ≠ 0 then d.RAM else r.RAM⟩ := by
  unfold resourcesAfter mergeResources
  by_cases h1 : d.CPU.isZero = true <;> by_cases h2 : d.Disk ≠ 0 <;> by_cases h3 : d.RAM ≠ 0 <;>
    simp [h1, h2, h3, resourcesOrDefault]

/-- Lines 134-156 on a configuration without resources: they stay absent
when every override is zero, and start from the defaults otherwise. -/
theorem resourcesAfter_none (env : Env) (d : SinkData) :
    resourcesAfter env d none
      = if d.CPU.isZero = true ∧ d.Disk = 0 ∧ d.RAM = 0 then none
        else resourcesAfter env d (some env.NewDefaultResources) := by
  rw [resourcesAfter_some]
  unfold resourcesAfter mergeResources
  by_cases h1 : d.CPU.isZero = true <;> by_cases h2 : d.Disk = 0 <;> by_cases h3 : d.RAM = 0 <;>
    simp [h1, h2, h3, resourcesOrDefault, SinkConfig.zero]

/-- Applying lines 134-156 a second time changes nothing. -/
theorem resourcesAfter_idem (env : Env) (d : SinkData) (r : Option Resources) :
    resourcesAfter env d (resourcesAfter env d r) = resourcesAfter env d r := by
  cases r with
  | some r =>
    rw [resourcesAfter_some, resourcesAfter_some]
    by_cases h1 : d.CPU.isZero = true <;> by_cases h2 : d.Disk ≠ 0 <;>
      by_cases h3 : d.RAM ≠ 0 <;> simp [h1, h2, h3]
  | none =>
    rw [resourcesAfter_none]
    split_ifs with h
    · rw [resourcesAfter_none, if_pos h]
    · rw [resourcesAfter_some, resourcesAfter_some]
      by_cases h1 : d.CPU.isZero = true <;> by_cases h2 : d.Disk ≠ 0 <;>
        by_cases h3 : d.RAM ≠ 0 <;> simp [h1, h2, h3]

/-- Lines 134-156 give the same result on resources that differ only in
overridden sub-fields. -/
theorem resourcesAfter_agree (env : Env) (d : SinkData) (r1 r2 : Option Resources)
    (h : resourcesAgree d r1 r2) :
    resourcesAfter env d r2 = resourcesAfter env d r1 := by
  cases r1 with
  | none =>
    cases r2 with
    | none => rfl
    | some b => simp [resourcesAgree] at h
  | some a =>
    cases r2 with
    | none => simp [resourcesAgree] at h
    | some b =>
      obtain ⟨hc, hd, hr⟩ := h
      rw [resourcesAfter_some, resourcesAfter_some]
      have e1 : (if d.CPU.isZero = true then b.CPU else d.CPU)
          = (if d.CPU.isZero = true then a.CPU else d.CPU) := by
        rcases hc with hc | hc
        · rw [hc]
        · simp [hc]
      have e2 : (if d.Disk ≠ 0 then d.Disk else b.Disk)
          = (if d.Disk ≠ 0 then d.Disk else a.Disk) := by
        rcases hd with hd | hd
        · rw [hd]
        · simp [hd]
      have e3 : (if d.RAM ≠ 0 then d.RAM else b.RAM)
          = (if d.RAM ≠ 0 then d.RAM else a.RAM) := by
        rcases hr with hr | hr
        · rw [hr]
        · simp [hr]
      rw [e1, e2, e3]

/-- A guarded assignment repeated on a value that agrees with its first
result, or whose guard holds, gives the first result. -/
theorem guarded_again {α : Type} (p : Prop) [Decidable p] (v c0 cr : α)
    (h : cr = (if p then v else c0) ∨ p) :
    (if p then v else cr) = (if p then v else c0) := by
  by_cases hp : p
  · simp [hp]
  · rcases h with h | h
    · simp only [hp, if_false] at h ⊢
      exact h
    · exact absurd h hp

/-- Merging the same overrides onto a configuration that agrees with the
merged one outside the overridden fields succeeds again and gives the merged
configuration again. -/
theorem mergeOverrides_again (env : Env) (d : SinkData) (c0 cr : SinkConfig)
    (h : (mergeOverrides env d c0).err = none)
    (hagree : reloadAgrees d (mergeOverrides env d c0).conf cr) :
    (mergeOverrides env d cr).err = none
    ∧ (mergeOverrides env d cr).conf = (mergeOverrides env d c0).conf := by
  have h' := mergeOverrides_err_indep env d c0 cr h
  refine ⟨h', ?_⟩
  obtain ⟨m, m2, hm0, hm1, hm20, hm21, hconf⟩ := mergeOverrides_conf env d c0 h
  obtain ⟨n, n2, hn0, hn1, hn20, hn21, hconf'⟩ := mergeOverrides_conf env d cr h'
  rw [hconf] at hagree
  simp only [reloadAgrees] at hagree
  obtain ⟨a1, a2, a3, a4, a5, a6, a7, a8, a9, a10, a11, a12, a13, a14, a15, a16, a17⟩ := hagree
  have e8 : n = m := by
    by_cases hs : d.CustomSerdeInputString = ""
    · rcases a8 with a8 | a8
      · rw [hn0 hs, a8]
      · exact absurd hs a8
    · obtain ⟨x, hx, rfl⟩ := hm1 hs
      obtain ⟨y, hy, rfl⟩ := hn1 hs
      rw [hx] at hy
      cases hy
      rfl
  have e9 : n2 = m2 := by
    by_cases hs : d.CustomSchemaInputString = ""
    · rcases a9 with a9 | a9
      · rw [hn20 hs, a9]
      · exact absurd hs a9
    · obtain ⟨x, hx, rfl⟩ := hm21 hs
      obtain ⟨y, hy, rfl⟩ := hn21 hs
      rw [hx] at hy
      cases hy
      rfl
  have e13 : (if d.SinkType ≠ "" then (validateSinkType env d.SinkType).1
        else if d.Archive ≠ "" then d.Archive else cr.Archive)
      = (if d.SinkType ≠ "" then (validateSinkType env d.SinkType).1
        else if d.Archive ≠ "" then d.Archive else c0.Archive) := by
    by_cases ht : d.SinkType ≠ ""
    · rw [if_pos ht, if_pos ht]
    · rw [if_neg ht, if_neg ht]
      by_cases ha : d.Archive ≠ ""
      · rw [if_pos ha, if_pos ha]
      · rcases a13 with a13 | a13 | a13
        · rw [if_neg ht, if_neg ha] at a13
          rw [if_neg ha, if_neg ha]
          exact a13
        · exact absurd a13 ha
        · exact absurd a13 ht
  have e14 : resourcesAfter env d cr.Resources = resourcesAfter env d c0.Resources := by
    rw [resourcesAfter_agree env d _ _ a14, resourcesAfter_idem]
  rw [hconf', hconf, e8, e9, e13, e14,
    guarded_again _ _ _ _ a1, guarded_again _ _ _ _ a2, guarded_again _ _ _ _ a3,
    guarded_again _ _ _ _ a4, guarded_again _ _ _ _ a5, guarded_again _ _ _ _ a6,
    guarded_again _ _ _ _ a7, guarded_again _ _ _ _ a10, guarded_again _ _ _ _ a11,
    guarded_again _ _ _ _ a12, guarded_again _ _ _ _ a15, guarded_again _ _ _ _ a16,
    guarded_again _ _ _ _ a17]

/-- When the second run has no file to decode (no path, or a path that does
not exist), the file step succeeds, leaves the state as it is, and the
conditions of `reloadAgrees` hold. -/
theorem loadConfigFile_again_not_read (env : Env) (d : SinkData) (c : SinkConfig)
    (h : d.SinkConfigFile = "" ∨ ∃ msg, env.ReadFile d.SinkConfigFile = .notExist msg) :
    (loadConfigFile env (d.withConf c)).err = none
    ∧ (loadConfigFile env (d.withConf c)).data = d.withConf c
    ∧ reloadAgrees (d.withConf c) c (loadConfigFile env (d.withConf c)).data.conf := by
  have h2 : d.SinkConfigFile = "" ∨ ∀ content, env.ReadFile d.SinkConfigFile ≠ .ok content := by
    rcases h with h | ⟨msg, h⟩
    · exact Or.inl h
    · right
      intro content hc
      rw [h] at hc
      cases hc
  have e : (loadConfigFile env (d.withConf c)).data = d.withConf c :=
    loadConfigFile_not_read env (d.withConf c) h2
  have herr : (loadConfigFile env (d.withConf c)).err = none := by
    unfold loadConfigFile
    rcases h with h | ⟨msg, h⟩
    · have h3 : (d.withConf c).SinkConfigFile = "" := h
      simp [h3]
    · have h3 : env.ReadFile (d.withConf c).SinkConfigFile = .notExist msg := h
      split_ifs
      · simp [h3]
      · rfl
  refine ⟨herr, e, ?_⟩
  rw [e]
  have hr : resourcesAgree (d.withConf c) c.Resources c.Resources := by
    cases hres : c.Resources with
    | none => trivial
    | some r => exact ⟨Or.inl rfl, Or.inl rfl, Or.inl rfl⟩
  exact ⟨Or.inl rfl, Or.inl rfl, Or.inl rfl, Or.inl rfl, Or.inl rfl, Or.inl rfl, Or.inl rfl,
    Or.inl rfl, Or.inl rfl, Or.inl rfl, Or.inl rfl, Or.inl rfl, Or.inl rfl, hr, Or.inl rfl,
    Or.inl rfl, Or.inl rfl⟩

/-- C6, counterexample: the file `tp.yaml` sets `topicsPattern: foo` and the
override sets `TopicsPattern` to `bar`. The first run on a fresh base
succeeds with topics pattern `bar`. In the second run on the result, the
decoder writes `foo` through the pointer the first run stored, which points
to the `TopicsPattern` override; the run succeeds with topics pattern `foo`,
so the two configurations differ. -/
theorem processArguments_not_idempotent :
    (processArguments demoEnv
        { SinkData.zero with SinkConfigFile := "tp.yaml", TopicsPattern := "bar" }).err = none
    ∧ (processArguments demoEnv (processArguments demoEnv
        { SinkData.zero with SinkConfigFile := "tp.yaml", TopicsPattern := "bar" }).data).err
      = none
    ∧ (processArguments demoEnv
        { SinkData.zero with SinkConfigFile := "tp.yaml",
                             TopicsPattern := "bar" }).data.confVal.TopicsPattern = some "bar"
    ∧ (processArguments demoEnv (processArguments demoEnv
        { SinkData.zero with SinkConfigFile := "tp.yaml",
                             TopicsPattern := "bar" }).data).data.confVal.TopicsPattern
      = some "foo"
    ∧ (processArguments demoEnv (processArguments demoEnv
        { SinkData.zero with SinkConfigFile := "tp.yaml",
                             TopicsPattern := "bar" }).data).data.confVal
      ≠ (processArguments demoEnv
        { SinkData.zero with SinkConfigFile := "tp.yaml",
                             TopicsPattern := "bar" }).data.confVal := by
  decide

/-- C6, amended: if `processArguments` succeeds, and in a second run on the
result the file step succeeds, leaves the `TopicsPattern` and `TimeoutMs`
overrides as they are, and changes the merged configuration only in fields
whose override is set (`reloadAgrees`), then the second run succeeds and
leaves the same state, so the same configuration field by field. -/
theorem processArguments_idempotent (env : Env) (d : SinkData)
    (h1 : (processArguments env d).err = none)
    (hload : (loadConfigFile env (processArguments env d).data).err = none)
    (htp : (loadConfigFile env (processArguments env d).data).data.TopicsPattern
      = (processArguments env d).data.TopicsPattern)
    (htm : (loadConfigFile env (processArguments env d).data).data.TimeoutMs
      = (processArguments env d).data.TimeoutMs)
    (hagree : reloadAgrees (processArguments env d).data (processArguments env d).data.conf
      (loadConfigFile env (processArguments env d).data).data.conf) :
    (processArguments env (processArguments env d).data).err = none
    ∧ (processArguments env (processArguments env d).data).data
        = (processArguments env d).data := by
  obtain ⟨hfile, hm, -⟩ := processArguments_ok env d h1
  have hod : (processArguments env d).data = (loadConfigFile env d).data.withConf
      (mergeOverrides env (loadConfigFile env d).data (loadConfigFile env d).data.conf).conf := by
    rw [processArguments_of_load_ok env d hfile]
  rw [hod] at hload htp htm hagree ⊢
  generalize (loadConfigFile env d).data = D at hm hload htp htm hagree ⊢
  obtain ⟨tp, tm, cr, hL2⟩ := loadConfigFile_data env
    (D.withConf (mergeOverrides env D D.conf).conf)
  rw [hL2] at htp htm hagree
  have e1 : tp = D.TopicsPattern := htp
  have e2 : tm = D.TimeoutMs := htm
  subst e1 e2
  have hL3 : (loadConfigFile env (D.withConf (mergeOverrides env D D.conf).conf)).data
      = D.withConf cr := hL2
  have hagree2 : reloadAgrees D (mergeOverrides env D D.conf).conf cr := hagree
  obtain ⟨herr, hconf⟩ := mergeOverrides_again env D D.conf cr hm hagree2
  rw [processArguments_of_load_ok env _ hload, hL3]
  have hc : (D.withConf cr).conf = cr := rfl
  rw [hc, mergeOverrides_withConf, hconf]
  exact ⟨herr, rfl⟩

/-- Witness of `processArguments_idempotent`: the file `tenant.yaml` sets the
tenant to `t1`, the overrides set tenant `t2`, a name and a CPU share. The
second run decodes the file onto the merged configuration, which puts the
tenant back to `t1`, and the overrides make it `t2` again. -/
theorem processArguments_idempotent_witness :
    (processArguments demoEnv (processArguments demoEnv { SinkData.zero with
        SinkConfigFile := "tenant.yaml", Tenant := "t2", Name := "s1", CPU := ⟨5⟩ }).data).data
      = (processArguments demoEnv { SinkData.zero with
        SinkConfigFile := "tenant.yaml", Tenant := "t2", Name := "s1", CPU := ⟨5⟩ }).data :=
  (processArguments_idempotent demoEnv { SinkData.zero with
      SinkConfigFile := "tenant.yaml", Tenant := "t2", Name := "s1", CPU := ⟨5⟩ }
    (by decide) (by decide) (by decide) (by decide) (by decide)).2

/-! ## Lemmas on the `strings` functions -/

/-- `containsChars` decides whether `sub` is a contiguous run of `s`. -/
theorem strings.containsChars_iff (sub s : List Char) :
    strings.containsChars sub s = true ↔ sub <:+: s := by
  induction s with
  | nil =>
    simp [strings.containsChars, List.isEmpty_iff]
  | cons c cs ih =>
    simp only [strings.containsChars, Bool.or_eq_true, List.isPrefixOf_iff_prefix, ih]
    exact List.infix_cons_iff.symm

/-- `strings.Contains` is the substring relation on the characters. -/
theorem strings.Contains_iff (s substr : String) :
    strings.Contains s substr = true ↔ substr.data <:+: s.data :=
  strings.containsChars_iff substr.data s.data

/-- A member of a list of pieces is a contiguous run of the pieces joined
with any separator, wherever it sits in the list. -/
theorem strings.infix_intercalate (sep x : List Char) (xs : List (List Char)) (h : x ∈ xs) :
    x <:+: List.intercalate sep xs := by
  have hmem : x ∈ xs.intersperse sep := by
    induction xs with
    | nil => cases h
    | cons a as ih =>
      cases as with
      | nil => simpa using h
      | cons b bs =>
        rw [List.intersperse_cons₂]
        rcases List.mem_cons.mp h with h | h
        · exact List.mem_cons.mpr (Or.inl h)
        · exact List.mem_cons_of_mem _ (List.mem_cons_of_mem _ (ih h))
  exact List.infix_of_mem_flatten hmem

/-- The pieces of a split are never none. -/
theorem strings.splitChars_ne_nil (sep : Char) (acc s : List Char) :
    strings.splitChars sep acc s ≠ [] := by
  induction s generalizing acc with
  | nil => simp [strings.splitChars]
  | cons c cs ih =>
    unfold strings.splitChars
    split_ifs
    · simp
    · exact ih _

/-- Joining `a` in front of a list of pieces that is not empty. -/
theorem strings.intercalate_cons (sep a : List Char) (rest : List (List Char))
    (h : rest ≠ []) :
    List.intercalate sep (a :: rest) = a ++ sep ++ List.intercalate sep rest := by
  cases rest with
  | nil => exact absurd rfl h
  | cons b bs => simp [List.intercalate, List.intersperse_cons₂]

/-- Joining the pieces of a split with the separator gives the text back. -/
theorem strings.intercalate_splitChars (sep : Char) (acc s : List Char) :
    List.intercalate [sep] (strings.splitChars sep acc s) = acc.reverse ++ s := by
  induction s generalizing acc with
  | nil => simp [strings.splitChars, List.intercalate]
  | cons c cs ih =>
    unfold strings.splitChars
    split_ifs with hc
    · rw [strings.intercalate_cons _ _ _ (strings.splitChars_ne_nil sep [] cs), ih, hc]
      simp
    · rw [ih]
      simp

/-- A split has one piece more than the text has separators. -/
theorem strings.length_splitChars (sep : Char) (acc s : List Char) :
    (strings.splitChars sep acc s).length = s.count sep + 1 := by
  induction s generalizing acc with
  | nil => simp [strings.splitChars]
  | cons c cs ih =>
    unfold strings.splitChars
    split_ifs with hc
    · rw [List.length_cons, ih, hc, List.count_cons_self]
    · rw [ih, List.count_cons_of_ne (fun h => hc h.symm)]

/-- No piece of a split holds the separator. -/
theorem strings.not_mem_splitChars (sep : Char) (acc s : List Char) (hacc : sep ∉ acc) :
    ∀ p ∈ strings.splitChars sep acc s, sep ∉ p := by
  induction s generalizing acc with
  | nil =>
    intro p hp
    simp only [strings.splitChars, List.mem_singleton] at hp
    rw [hp]
    simpa using hacc
  | cons c cs ih =>
    intro p hp
    unfold strings.splitChars at hp
    split_ifs at hp with hc
    · rcases List.mem_cons.mp hp with hp | hp
      · rw [hp]
        simpa using hacc
      · exact ih [] (by simp) p hp
    · refine ih (c :: acc) ?_ p hp
      intro hmem
      rcases List.mem_cons.mp hmem with h | h
      · exact hc h.symm
      · exact hacc h

/-- The comma-split of a text: it is not empty, no piece holds a comma, there
is one piece more than commas, and joining the pieces with a comma gives the
text back. -/
theorem strings.Split_comma (s : String) :
    strings.Split s ',' ≠ []
    ∧ (∀ x ∈ strings.Split s ',', ',' ∉ x.data)
    ∧ (strings.Split s ',').length = s.data.count ',' + 1
    ∧ strings.Join (strings.Split s ',') "," = s := by
  refine ⟨?_, ?_, ?_, ?_⟩
  · intro h
    have h2 := congrArg List.length h
    simp only [strings.Split, List.length_map, List.length_nil] at h2
    rw [strings.length_splitChars] at h2
    omega
  · intro x hx
    simp only [strings.Split, List.mem_map] at hx
    obtain ⟨p, hp, rfl⟩ := hx
    exact strings.not_mem_splitChars ',' [] s.data (by simp) p hp
  · simp only [strings.Split, List.length_map]
    exact strings.length_splitChars ',' [] s.data
  · have hm : ((strings.splitChars ',' [] s.data).map String.mk).map String.data
        = strings.splitChars ',' [] s.data := by
      rw [List.map_map]
      exact List.map_id _
    simp only [strings.Join, strings.Split]
    rw [hm, strings.intercalate_splitChars]
    rfl

/-! ## The builtin-type resolver (C13, C14, C15) -/

/-- C13: `validateSinkType` returns the empty string or `"builtin://" + t`,
never an error. It returns the empty string (and logs) when the catalog fetch
fails or when `t` is not a substring of the catalog names joined by single
spaces, and `"builtin://" + t` when the fetch succeeds and `t` is such a
substring. -/
theorem validateSinkType_result (env : Env) (t : String) :
    ((validateSinkType env t).1 = "" ∨ (validateSinkType env t).1 = "builtin://" ++ t)
    ∧ (∀ e, env.GetBuiltInSinks = .error e →
        validateSinkType env t = ("", [Event.GetBuiltInSinks,
          Event.Printf ("get builtin sinks error: " ++ e ++ "\n")]))
    ∧ (∀ defs, env.GetBuiltInSinks = .ok defs →
        ¬ t.data <:+: (strings.Join (defs.map ConnectorDefinition.Name) " ").data →
        (validateSinkType env t).1 = ""
        ∧ ∃ msg, (validateSinkType env t).2 = [Event.GetBuiltInSinks, Event.Printf msg])
    ∧ (∀ defs, env.GetBuiltInSinks = .ok defs →
        t.data <:+: (strings.Join (defs.map ConnectorDefinition.Name) " ").data →
        validateSinkType env t = ("builtin://" ++ t, [Event.GetBuiltInSinks])) := by
  refine ⟨?_, ?_, ?_, ?_⟩
  · unfold validateSinkType
    split
    · exact Or.inl rfl
    · dsimp only
      split_ifs
      · exact Or.inl rfl
      · exact Or.inr rfl
  · intro e he
    simp only [validateSinkType, he]
  · intro defs hd hnot
    have hc : strings.Contains (strings.Join (defs.map ConnectorDefinition.Name) " ") t
        = false := by
      rw [← Bool.not_eq_true, strings.Contains_iff]
      exact hnot
    simp only [validateSinkType, hd, hc]
    exact ⟨rfl, _, rfl⟩
  · intro defs hd hin
    have hc : strings.Contains (strings.Join (defs.map ConnectorDefinition.Name) " ") t
        = true := (strings.Contains_iff _ _).mpr hin
    simp only [validateSinkType, hd, hc]
    rfl

/-- Witness of `validateSinkType_result`: against the catalog `kafka`, `jdbc`
the type `unknownthing` gives the empty string and `jdbc` its locator. -/
theorem validateSinkType_result_witness :
    (validateSinkType demoEnv "unknownthing").1 = ""
    ∧ validateSinkType demoEnv "jdbc" = ("builtin://jdbc", [Event.GetBuiltInSinks]) :=
  ⟨((validateSinkType_result demoEnv "unknownthing").2.2.1 [⟨"kafka"⟩, ⟨"jdbc"⟩] rfl
      (by rw [← strings.Contains_iff]; decide)).1,
   (validateSinkType_result demoEnv "jdbc").2.2.2 [⟨"kafka"⟩, ⟨"jdbc"⟩] rfl
      (by rw [← strings.Contains_iff]; decide)⟩

/-- C14: every name of a connector definition of a fetched catalog resolves:
`validateSinkType n` is `"builtin://" + n`, wherever `n` sits in the list. -/
theorem validateSinkType_member (env : Env) (defs : List ConnectorDefinition) (n : String)
    (hfetch : env.GetBuiltInSinks = .ok defs)
    (hn : ∃ cd ∈ defs, cd.Name = n) :
    (validateSinkType env n).1 = "builtin://" ++ n := by
  have hin : n.data <:+: (strings.Join (defs.map ConnectorDefinition.Name) " ").data := by
    obtain ⟨cd, hcd, rfl⟩ := hn
    have hmem : cd.Name.data ∈ (defs.map ConnectorDefinition.Name).map String.data :=
      List.mem_map.mpr ⟨cd.Name, List.mem_map.mpr ⟨cd, hcd, rfl⟩, rfl⟩
    exact strings.infix_intercalate _ _ _ hmem
  have hc : strings.Contains (strings.Join (defs.map ConnectorDefinition.Name) " ") n
      = true := (strings.Contains_iff _ _).mpr hin
  simp only [validateSinkType, hfetch, hc]
  rfl

/-- Witness of `validateSinkType_member`: `jdbc`, the last name of the
catalog `kafka`, `jdbc`. -/
theorem validateSinkType_member_witness :
    (validateSinkType demoEnv "jdbc").1 = "builtin://jdbc" :=
  validateSinkType_member demoEnv [⟨"kafka"⟩, ⟨"jdbc"⟩] "jdbc" rfl ⟨⟨"jdbc"⟩, by decide, rfl⟩

/-- C15: the membership check matches names that are no member. Against the
catalog `kafka`, `jdbc`, the type `kaf` (a part of a name) and the type `a j`
(a run across the separating space) are the name of no connector definition,
and `validateSinkType` returns the locators `builtin://kaf` and
`builtin://a j` for them. -/
theorem validateSinkType_false_match :
    demoEnv.GetBuiltInSinks = .ok [⟨"kafka"⟩, ⟨"jdbc"⟩]
    ∧ (∀ cd ∈ [(⟨"kafka"⟩ : ConnectorDefinition), ⟨"jdbc"⟩], cd.Name ≠ "kaf")
    ∧ (validateSinkType demoEnv "kaf").1 = "builtin://kaf"
    ∧ (∀ cd ∈ [(⟨"kafka"⟩ : ConnectorDefinition), ⟨"jdbc"⟩], cd.Name ≠ "a j")
    ∧ (validateSinkType demoEnv "a j").1 = "builtin://a j" :=
  ⟨rfl, by decide, by decide, by decide, by decide⟩

/-! ## Inputs (C18) -/

/-- C18: after a successful `processArguments` with a non-empty `Inputs`
override `s`, the merged inputs are the comma-split of `s`, whatever the base
held: a non-empty sequence, no element of which holds a comma, with one
element more than `s` has commas, and joining it with `,` gives `s` back. -/
theorem processArguments_inputs_split (env : Env) (d : SinkData)
    (h : (processArguments env d).err = none) (hs : d.Inputs ≠ "") :
    (processArguments env d).data.conf.Inputs = strings.Split d.Inputs ','
    ∧ (processArguments env d).data.conf.Inputs ≠ []
    ∧ (∀ x ∈ (processArguments env d).data.conf.Inputs, ',' ∉ x.data)
    ∧ (processArguments env d).data.conf.Inputs.length = d.Inputs.data.count ',' + 1
    ∧ strings.Join (processArguments env d).data.conf.Inputs "," = d.Inputs := by
  obtain ⟨-, hm, hc⟩ := processArguments_ok env d h
  obtain ⟨m, m2, -, -, -, -, hconf⟩ := mergeOverrides_conf env _ _ hm
  obtain ⟨tp, tm, conf, hL⟩ := loadConfigFile_data env d
  have hI : (processArguments env d).data.conf.Inputs = strings.Split d.Inputs ',' := by
    rw [hc, hconf, hL]
    simp only [hs, ne_eq, not_false_eq_true, if_true]
  rw [hI]
  exact ⟨rfl, strings.Split_comma d.Inputs⟩

/-- Witness of `processArguments_inputs_split`: the inputs `a,b,,c` onto a
base that held the input `old`. -/
theorem processArguments_inputs_split_witness :
    (processArguments demoEnv { SinkData.zero with
        Inputs := "a,b,,c",
        SinkConf := some { SinkConfig.zero with Inputs := ["old"] } }).data.conf.Inputs
      = ["a", "b", "", "c"] :=
  ((processArguments_inputs_split demoEnv { SinkData.zero with
      Inputs := "a,b,,c",
      SinkConf := some { SinkConfig.zero with Inputs := ["old"] } }
    (by decide) (by decide)).1).trans (by decide)

/-! ## Resources (C19) -/

/-- Lines 134-156 in one formula: the resources stay absent when they were
absent and every override is zero; otherwise each sub-field is its override
when that is not zero, and else the value it had, the default when the
resources were absent. -/
theorem resourcesAfter_eq (env : Env) (d : SinkData) (r : Option Resources) :
    resourcesAfter env d r
      = if r = none ∧ d.CPU.isZero = true ∧ d.Disk = 0 ∧ d.RAM = 0 then none
        else some
          ⟨if d.CPU.isZero = true then (r.getD env.NewDefaultResources).CPU else d.CPU,
           if d.Disk ≠ 0 then d.Disk else (r.getD env.NewDefaultResources).Disk,
           if d.RAM ≠ 0 then d.RAM else (r.getD env.NewDefaultResources).RAM⟩ := by
  cases r with
  | some r =>
    rw [resourcesAfter_some]
    simp
  | none =>
    rw [resourcesAfter_none]
    by_cases hz : d.CPU.isZero = true ∧ d.Disk = 0 ∧ d.RAM = 0
    · simp [hz]
    · have hz2 : ¬ ((none : Option Resources) = none
          ∧ d.CPU.isZero = true ∧ d.Disk = 0 ∧ d.RAM = 0) := fun h => hz h.2
      rw [if_neg hz, resourcesAfter_some, if_neg hz2]
      rfl

/-- C19: after a successful `processArguments` the merged resources are
present exactly when the base had resources or one of the CPU, disk and RAM
overrides is not zero; when present, each of cpu, disk and ram is its
override when that is not zero, otherwise the base value when the base had
resources, otherwise the value of the default resources. -/
theorem processArguments_resources (env : Env) (d : SinkData)
    (h : (processArguments env d).err = none) :
    ((processArguments env d).data.conf.Resources.isSome = true ↔
      (loadConfigFile env d).data.conf.Resources.isSome = true
        ∨ d.CPU.isZero = false ∨ d.Disk ≠ 0 ∨ d.RAM ≠ 0)
    ∧ ∀ r, (processArguments env d).data.conf.Resources = some r →
        r.CPU = (if d.CPU.isZero = true then
            ((loadConfigFile env d).data.conf.Resources.getD env.NewDefaultResources).CPU
          else d.CPU)
        ∧ r.Disk = (if d.Disk ≠ 0 then d.Disk else
            ((loadConfigFile env d).data.conf.Resources.getD env.NewDefaultResources).Disk)
        ∧ r.RAM = (if d.RAM ≠ 0 then d.RAM else
            ((loadConfigFile env d).data.conf.Resources.getD env.NewDefaultResources).RAM) := by
  obtain ⟨-, hm, hc⟩ := processArguments_ok env d h
  obtain ⟨m, m2, -, -, -, -, hconf⟩ := mergeOverrides_conf env _ _ hm
  obtain ⟨tp, tm, conf, hL⟩ := loadConfigFile_data env d
  have hR : (processArguments env d).data.conf.Resources
      = resourcesAfter env d (loadConfigFile env d).data.conf.Resources := by
    rw [hc, hconf]
    show resourcesAfter env (loadConfigFile env d).data _ = _
    rw [resourcesAfter_eq, resourcesAfter_eq, hL]
  rw [hR, resourcesAfter_eq]
  generalize (loadConfigFile env d).data.conf.Resources = base
  constructor
  · by_cases hz : base = none ∧ d.CPU.isZero = true ∧ d.Disk = 0 ∧ d.RAM = 0
    · obtain ⟨h1, h2, h3, h4⟩ := hz
      simp [h1, h2, h3, h4]
    · rw [if_neg hz]
      simp only [Option.isSome_some, true_iff]
      by_contra hcon
      push_neg at hcon
      obtain ⟨h1, h2, h3, h4⟩ := hcon
      apply hz
      refine ⟨?_, by simpa using h2, h3, h4⟩
      cases base with
      | none => rfl
      | some b => simp at h1
  · intro r hr
    by_cases hz : base = none ∧ d.CPU.isZero = true ∧ d.Disk = 0 ∧ d.RAM = 0
    · rw [if_pos hz] at hr
      cases hr
    · rw [if_neg hz] at hr
      cases hr
      exact ⟨rfl, rfl, rfl⟩

/-- Witness of `processArguments_resources`: a disk override of `7` onto a
base without resources gives the default CPU and RAM with disk `7`. -/
theorem processArguments_resources_witness :
    (processArguments demoEnv { SinkData.zero with Disk := 7 }).data.conf.Resources
      = some ⟨⟨4607182418800017408⟩, 7, 1073741824⟩ := by
  have h := processArguments_resources demoEnv { SinkData.zero with Disk := 7 } (by decide)
  have hs := h.1.mpr (Or.inr (Or.inr (Or.inl (by decide))))
  cases hr : (processArguments demoEnv { SinkData.zero with Disk := 7 }).data.conf.Resources with
  | none => rw [hr] at hs; cases hs
  | some r =>
    obtain ⟨h1, h2, h3⟩ := h.2 r hr
    have e : r = ⟨r.CPU, r.Disk, r.RAM⟩ := rfl
    rw [e, h1, h2, h3]
    rfl

/-! ## Resolver failure (C16) -/

/-- C16: when the sink type is set and `validateSinkType` returns the empty
string for it, a successful `processArguments` (which then had no archive
override) stores the empty string into `SinkConf.Archive`, whatever archive
the base held, and `validateSinkConfigs` on the merged configuration fails
with "Sink archive not specified", leaving it unchanged and calling no
collaborator. -/
theorem processArguments_resolver_failure (env : Env) (d : SinkData)
    (h : (processArguments env d).err = none)
    (hT : d.SinkType ≠ "")
    (hv : (validateSinkType env d.SinkType).1 = "") :
    d.Archive = ""
    ∧ (processArguments env d).data.conf.Archive = ""
    ∧ validateSinkConfigs env (processArguments env d).data.conf
        = ⟨(processArguments env d).data.conf, some "Sink archive not specified", []⟩ := by
  obtain ⟨-, hm, hc⟩ := processArguments_ok env d h
  obtain ⟨c2, c3, -, -, hnc, -, -⟩ := mergeOverrides_ok env _ _ hm
  obtain ⟨m, m2, -, -, -, -, hconf⟩ := mergeOverrides_conf env _ _ hm
  obtain ⟨tp, tm, conf, hL⟩ := loadConfigFile_data env d
  have hA : d.Archive = "" := by
    rw [hL] at hnc
    by_contra hne
    exact hnc ⟨hne, hT⟩
  have harch : (processArguments env d).data.conf.Archive = "" := by
    rw [hc, hconf, hL]
    simp only [hT, ne_eq, not_false_eq_true, if_true]
    exact hv
  refine ⟨hA, harch, ?_⟩
  simp only [validateSinkConfigs, harch, if_true]

/-- Witness of `processArguments_resolver_failure`: the sink type
`unknownthing` against the catalog `kafka`, `jdbc`, onto a base whose archive
is `old.nar`. -/
theorem processArguments_resolver_failure_witness :
    (processArguments demoEnv { SinkData.zero with
        SinkType := "unknownthing",
        SinkConf := some { SinkConfig.zero with Archive := "old.nar" } }).data.conf.Archive = ""
    ∧ (validateSinkConfigs demoEnv (processArguments demoEnv { SinkData.zero with
        SinkType := "unknownthing",
        SinkConf := some { SinkConfig.zero with Archive := "old.nar" } }).data.conf).err
      = some "Sink archive not specified" :=
  have h := processArguments_resolver_failure demoEnv { SinkData.zero with
      SinkType := "unknownthing",
      SinkConf := some { SinkConfig.zero with Archive := "old.nar" } }
    (by decide) (by decide) (by decide)
  ⟨h.2.1, congrArg ConfOutcome.err h.2.2⟩

/-! ## Tenant and namespace after defaulting (C20) -/

/-- C20: with non-empty default tenant and namespace, after
`processNamespaceCmd` (also as run by `processBaseArguments`, whether or not
that then fails on an empty name) and after `checkArgsForUpdate` the tenant
and the namespace are both non-empty, for every input; and running either
operation a second time changes nothing. -/
theorem defaulting_both_set (env : Env)
    (hT : env.PublicTenant ≠ "") (hN : env.DefaultNamespace ≠ "") :
    (∀ d : SinkData,
      (processNamespaceCmd env d).Tenant ≠ ""
      ∧ (processNamespaceCmd env d).Namespace ≠ ""
      ∧ processNamespaceCmd env (processNamespaceCmd env d) = processNamespaceCmd env d
      ∧ (processBaseArguments env d).1 = processNamespaceCmd env d
      ∧ (processBaseArguments env (processBaseArguments env d).1).1
          = (processBaseArguments env d).1)
    ∧ (∀ c : SinkConfig,
      (checkArgsForUpdate env c).Tenant ≠ ""
      ∧ (checkArgsForUpdate env c).Namespace ≠ ""
      ∧ checkArgsForUpdate env (checkArgsForUpdate env c) = checkArgsForUpdate env c) := by
  have hP : ∀ d : SinkData, (processNamespaceCmd env d).Tenant ≠ ""
      ∧ (processNamespaceCmd env d).Namespace ≠ "" := by
    intro d
    by_cases hd : d.Tenant = "" ∨ d.Namespace = ""
    · simp only [processNamespaceCmd, hd, if_true]
      exact ⟨hT, hN⟩
    · simp only [processNamespaceCmd, hd, if_false]
      exact ⟨fun h => hd (Or.inl h), fun h => hd (Or.inr h)⟩
  have hI : ∀ d : SinkData, d.Tenant ≠ "" → d.Namespace ≠ "" →
      processNamespaceCmd env d = d := by
    intro d h1 h2
    have hd : ¬ (d.Tenant = "" ∨ d.Namespace = "") := by
      intro h
      rcases h with h | h
      · exact h1 h
      · exact h2 h
    simp only [processNamespaceCmd, hd, if_false]
  have hB : ∀ d : SinkData, (processBaseArguments env d).1 = processNamespaceCmd env d := by
    intro d
    unfold processBaseArguments
    dsimp only
    split_ifs <;> rfl
  constructor
  · intro d
    refine ⟨(hP d).1, (hP d).2, hI _ (hP d).1 (hP d).2, hB d, ?_⟩
    rw [hB, hB, hI _ (hP d).1 (hP d).2]
  · intro c
    have hC : (checkArgsForUpdate env c).Tenant ≠ ""
        ∧ (checkArgsForUpdate env c).Namespace ≠ "" := by
      unfold checkArgsForUpdate
      by_cases ht : c.Tenant = "" <;> by_cases hn : c.Namespace = "" <;> simp [ht, hn, hT, hN]
    refine ⟨hC.1, hC.2, ?_⟩
    generalize checkArgsForUpdate env c = c2 at hC
    obtain ⟨h1, h2⟩ := hC
    simp only [checkArgsForUpdate, h1, h2, if_false]

/-- Witness of `defaulting_both_set`: with the defaults `public` and
`default`, an empty tenant next to namespace `ns1` ends with both set on the
creation path and on the update path. -/
theorem defaulting_both_set_witness :
    (processNamespaceCmd demoEnv { SinkData.zero with Namespace := "ns1" }).Tenant ≠ ""
    ∧ (checkArgsForUpdate demoEnv { SinkConfig.zero with Namespace := "ns1" }).Tenant ≠ "" :=
  ⟨((defaulting_both_set demoEnv (by decide) (by decide)).1
      { SinkData.zero with Namespace := "ns1" }).1,
   ((defaulting_both_set demoEnv (by decide) (by decide)).2
      { SinkConfig.zero with Namespace := "ns1" }).1⟩

/-! ## What the outcome of `processArguments` depends on -/

/-- Whether the file step fails, and with which error, depends on the path,
the configuration held and the two overrides it can point into. -/
theorem loadConfigFile_err_congr (env : Env) (d d' : SinkData)
    (h1 : d'.SinkConfigFile = d.SinkConfigFile) (h2 : d'.SinkConf = d.SinkConf)
    (h3 : d'.TopicsPattern = d.TopicsPattern) (h4 : d'.TimeoutMs = d.TimeoutMs) :
    (loadConfigFile env d').err = (loadConfigFile env d).err := by
  have hc : d'.conf = d.conf := by
    unfold SinkData.conf
    rw [h2]
  have hv : d'.conf.view d' = d.conf.view d := by
    rw [hc]
    unfold SinkConfig.view
    rw [h3, h4]
  unfold loadConfigFile
  rw [h1]
  by_cases hf : d.SinkConfigFile = ""
  · simp [hf]
  · cases hr : env.ReadFile d.SinkConfigFile with
    | ok content =>
      simp only [hf, ne_eq, not_false_eq_true, if_true, hv]
      cases hy : (env.yamlUnmarshal content (d.conf.view d)).2 <;> rfl
    | notExist msg => simp [hf]
    | failed msg => simp [hf]

/-- Whether the merge fails, and with which error, depends on the serde and
schema strings and the two packaging overrides only. -/
theorem mergeOverrides_err_congr (env : Env) (d d' : SinkData) (c c' : SinkConfig)
    (h1 : d'.CustomSerdeInputString = d.CustomSerdeInputString)
    (h2 : d'.CustomSchemaInputString = d.CustomSchemaInputString)
    (h3 : d'.Archive = d.Archive) (h4 : d'.SinkType = d.SinkType) :
    (mergeOverrides env d' c').err = (mergeOverrides env d c).err := by
  by_cases hs : d.CustomSerdeInputString = "" <;>
    cases hj : env.jsonUnmarshalStrings d.CustomSerdeInputString <;>
    by_cases hsc : d.CustomSchemaInputString = "" <;>
    cases hj2 : env.jsonUnmarshalStrings d.CustomSchemaInputString <;>
    by_cases hk : d.Archive ≠ "" ∧ d.SinkType ≠ "" <;>
    simp [mergeOverrides, mergeSerde, mergeSchema, h1, h2, h3, h4, hs, hj, hsc, hj2, hk]

/-- The error of `processArguments` is the error of the file step or, when
there is none, the error of the merge. -/
theorem processArguments_err (env : Env) (d : SinkData) :
    (processArguments env d).err
      = match (loadConfigFile env d).err with
        | some e => some e
        | none => (mergeOverrides env (loadConfigFile env d).data
            (loadConfigFile env d).data.conf).err := by
  cases hl : (loadConfigFile env d).err with
  | some e => rw [processArguments_of_load_err env d e hl]
  | none => rw [processArguments_of_load_ok env d hl]

/-- The error of `processArguments` is the same for two inputs that agree on
the path, the configuration held, the overrides the configuration can point
into, the serde and schema strings and the packaging overrides. -/
theorem processArguments_err_congr (env : Env) (d d' : SinkData)
    (h1 : d'.SinkConfigFile = d.SinkConfigFile) (h2 : d'.SinkConf = d.SinkConf)
    (h3 : d'.TopicsPattern = d.TopicsPattern) (h4 : d'.TimeoutMs = d.TimeoutMs)
    (h5 : d'.CustomSerdeInputString = d.CustomSerdeInputString)
    (h6 : d'.CustomSchemaInputString = d.CustomSchemaInputString)
    (h7 : d'.Archive = d.Archive) (h8 : d'.SinkType = d.SinkType) :
    (processArguments env d').err = (processArguments env d).err := by
  rw [processArguments_err, processArguments_err,
    loadConfigFile_err_congr env d d' h1 h2 h3 h4]
  obtain ⟨tp, tm, conf, hL⟩ := loadConfigFile_data env d
  obtain ⟨tp', tm', conf', hL'⟩ := loadConfigFile_data env d'
  have e := mergeOverrides_err_congr env (loadConfigFile env d).data (loadConfigFile env d').data
    (loadConfigFile env d).data.conf (loadConfigFile env d').data.conf
    (by rw [hL, hL']; exact h5) (by rw [hL, hL']; exact h6)
    (by rw [hL, hL']; exact h7) (by rw [hL, hL']; exact h8)
  rw [e]

/-! ## The free-form configs (C12) -/

/-- C12: a `SinkConfigString` that is not empty and does not decode is
absorbed: `processArguments` returns the error it returns for the same input
with an empty `SinkConfigString`, and on success the merged `Configs` is
absent, whatever the base held; when the string decodes, the merged `Configs`
is the decoded mapping. `parseConfigs` returns the decoded mapping when the
decoder succeeds and the absent mapping when it fails. -/
theorem processArguments_configs (env : Env) (d : SinkData) :
    (∀ e, d.SinkConfigString ≠ "" → env.jsonUnmarshalConfigs d.SinkConfigString = .error e →
      (processArguments env d).err
        = (processArguments env { d with SinkConfigString := "" }).err
      ∧ ((processArguments env d).err = none →
          (processArguments env d).data.conf.Configs = none))
    ∧ (∀ m, d.SinkConfigString ≠ "" → env.jsonUnmarshalConfigs d.SinkConfigString = .ok m →
      (processArguments env d).err = none →
      (processArguments env d).data.conf.Configs = m)
    ∧ (∀ str m, env.jsonUnmarshalConfigs str = .ok m → parseConfigs env str = m)
    ∧ (∀ str e, env.jsonUnmarshalConfigs str = .error e → parseConfigs env str = none) := by
  have hC : (processArguments env d).err = none → d.SinkConfigString ≠ "" →
      (processArguments env d).data.conf.Configs = parseConfigs env d.SinkConfigString := by
    intro h hne
    obtain ⟨-, hm, hc⟩ := processArguments_ok env d h
    obtain ⟨m, m2, -, -, -, -, hconf⟩ := mergeOverrides_conf env _ _ hm
    obtain ⟨tp, tm, conf, hL⟩ := loadConfigFile_data env d
    rw [hc, hconf, hL]
    simp only [hne, ne_eq, not_false_eq_true, if_true]
  refine ⟨?_, ?_, ?_, ?_⟩
  · intro e hne hbad
    refine ⟨(processArguments_err_congr env d { d with SinkConfigString := "" }
      rfl rfl rfl rfl rfl rfl rfl rfl).symm, ?_⟩
    intro h
    rw [hC h hne]
    simp only [parseConfigs, hbad]
  · intro m hne hgood h
    rw [hC h hne]
    simp only [parseConfigs, hgood]
  · intro str m hgood
    simp only [parseConfigs, hgood]
  · intro str e hbad
    simp only [parseConfigs, hbad]

/-- Witness of `processArguments_configs`: a configs string that is not JSON,
onto a base that holds configs; the merge succeeds and the configs are gone. -/
theorem processArguments_configs_witness :
    (processArguments demoEnv { SinkData.zero with
        SinkConfigString := "oops",
        SinkConf := some { SinkConfig.zero with Configs := some [("k", ⟨"1"⟩)] } }).err = none
    ∧ (processArguments demoEnv { SinkData.zero with
        SinkConfigString := "oops",
        SinkConf := some { SinkConfig.zero with
          Configs := some [("k", ⟨"1"⟩)] } }).data.conf.Configs = none :=
  have h := (processArguments_configs demoEnv { SinkData.zero with
      SinkConfigString := "oops",
      SinkConf := some { SinkConfig.zero with Configs := some [("k", ⟨"1"⟩)] } }).1
    "invalid character" (by decide) rfl
  ⟨by decide, h.2 (by decide)⟩

/-! ## The document loader (C17) -/

/-- The file step on a path that does not exist only allocates the
configuration. -/
theorem loadConfigFile_notExist (env : Env) (d : SinkData) (msg : String)
    (hne : d.SinkConfigFile ≠ "") (hr : env.ReadFile d.SinkConfigFile = .notExist msg) :
    loadConfigFile env d
      = ⟨d.withConf d.conf, none, [Event.ReadFile d.SinkConfigFile]⟩ := by
  simp only [loadConfigFile, hne, ne_eq, not_false_eq_true, if_true, hr, SinkData.withConf]

/-- The file step fails on a read error other than a missing file. -/
theorem loadConfigFile_failed (env : Env) (d : SinkData) (msg : String)
    (hne : d.SinkConfigFile ≠ "") (hr : env.ReadFile d.SinkConfigFile = .failed msg) :
    (loadConfigFile env d).err = some ("load conf file failed, err:" ++ msg) := by
  simp only [loadConfigFile, hne, ne_eq, not_false_eq_true, if_true, hr]

/-- The file step fails when the content read does not parse. -/
theorem loadConfigFile_parse_err (env : Env) (d : SinkData) (content e : String)
    (hne : d.SinkConfigFile ≠ "") (hr : env.ReadFile d.SinkConfigFile = .ok content)
    (hy : (env.yamlUnmarshal content (d.conf.view d)).2 = some e) :
    (loadConfigFile env d).err = some ("unmarshal yaml file error:" ++ e) := by
  simp only [loadConfigFile, hne, ne_eq, not_false_eq_true, if_true, hr, hy]

/-- C17: with a `SinkConfigFile` that is set, a read that fails because the
file does not exist makes `processArguments` return the error and the merged
configuration it returns for the same input without `SinkConfigFile`; a read
that fails otherwise makes it return the error "load conf file failed", and
content that does not parse the error "unmarshal yaml file error". -/
theorem processArguments_loader (env : Env) (d : SinkData) (hne : d.SinkConfigFile ≠ "") :
    (∀ msg, env.ReadFile d.SinkConfigFile = .notExist msg →
      (processArguments env d).err
        = (processArguments env { d with SinkConfigFile := "" }).err
      ∧ (processArguments env d).data.conf
        = (processArguments env { d with SinkConfigFile := "" }).data.conf
      ∧ (processArguments env d).data.confVal
        = (processArguments env { d with SinkConfigFile := "" }).data.confVal)
    ∧ (∀ msg, env.ReadFile d.SinkConfigFile = .failed msg →
      (processArguments env d).err = some ("load conf file failed, err:" ++ msg))
    ∧ (∀ content e, env.ReadFile d.SinkConfigFile = .ok content →
      (env.yamlUnmarshal content (d.conf.view d)).2 = some e →
      (processArguments env d).err = some ("unmarshal yaml file error:" ++ e)) := by
  refine ⟨?_, ?_, ?_⟩
  · intro msg hr
    have e1 := loadConfigFile_notExist env d msg hne hr
    have e0 : loadConfigFile env { d with SinkConfigFile := "" }
        = ⟨{ d with SinkConfigFile := "", SinkConf := some d.conf }, none, []⟩ :=
      loadConfigFile_noFile env { d with SinkConfigFile := "" } rfl
    simp only [processArguments, e1, e0]
    exact ⟨rfl, rfl, rfl⟩
  · intro msg hr
    rw [processArguments_err, loadConfigFile_failed env d msg hne hr]
  · intro content e hr hy
    rw [processArguments_err, loadConfigFile_parse_err env d content e hne hr hy]

/-- Witness of `processArguments_loader`: the path `missing.yaml` does not
exist and the merge goes on as without a file; the path `secret.yaml` cannot
be read; a file holding `::` does not parse. -/
theorem processArguments_loader_witness :
    (processArguments demoEnv
        { SinkData.zero with SinkConfigFile := "missing.yaml", Name := "s1" }).data.conf
      = (processArguments demoEnv
        { SinkData.zero with SinkConfigFile := "", Name := "s1" }).data.conf
    ∧ (processArguments demoEnv { SinkData.zero with SinkConfigFile := "secret.yaml" }).err
      = some "load conf file failed, err:open secret.yaml: permission denied"
    ∧ (processArguments { demoEnv with ReadFile := fun _ => .ok "::" }
        { SinkData.zero with SinkConfigFile := "bad.yaml" }).err
      = some "unmarshal yaml file error:yaml: unmarshal errors" :=
  ⟨((processArguments_loader demoEnv
      { SinkData.zero with SinkConfigFile := "missing.yaml", Name := "s1" } (by decide)).1
      "open missing.yaml: no such file or directory" rfl).2.1,
   (processArguments_loader demoEnv
      { SinkData.zero with SinkConfigFile := "secret.yaml" } (by decide)).2.1
      "open secret.yaml: permission denied" rfl,
   (processArguments_loader { demoEnv with ReadFile := fun _ => .ok "::" }
      { SinkData.zero with SinkConfigFile := "bad.yaml" } (by decide)).2.2
      "::" "yaml: unmarshal errors" rfl rfl⟩

/-! ## The configuration after a failure (C11) -/

/-- With both packaging overrides set and both decoders passing, the merge
returns the configuration of lines 57-120. -/
theorem mergeOverrides_conflict_conf (env : Env) (d : SinkData) (c c2 c3 : SinkConfig)
    (h2 : mergeSerde env d (mergeIdentity d c) = .ok c2)
    (h3 : mergeSchema env d c2 = .ok c3)
    (hk : d.Archive ≠ "" ∧ d.SinkType ≠ "") :
    mergeOverrides env d c
      = ⟨mergeSubscription d c3, some "Cannot specify both archive and sink-type", []⟩ := by
  simp only [mergeOverrides, h2, h3]
  rw [if_pos hk]

/-- The serde step fails only on a string that is set and that the decoder
rejects, with the decoder error. -/
theorem mergeSerde_err_inv (env : Env) (d : SinkData) (c : SinkConfig) (e : String)
    (h : mergeSerde env d c = .error e) :
    d.CustomSerdeInputString ≠ ""
    ∧ env.jsonUnmarshalStrings d.CustomSerdeInputString = .error e := by
  unfold mergeSerde at h
  split_ifs at h with hs
  · refine ⟨hs, ?_⟩
    split at h
    · rename_i e2 he2
      cases h
      exact he2
    · cases h

/-- The schema step fails only on a string that is set and that the decoder
rejects, with the decoder error. -/
theorem mergeSchema_err_inv (env : Env) (d : SinkData) (c : SinkConfig) (e : String)
    (h : mergeSchema env d c = .error e) :
    d.CustomSchemaInputString ≠ ""
    ∧ env.jsonUnmarshalStrings d.CustomSchemaInputString = .error e := by
  unfold mergeSchema at h
  split_ifs at h with hs
  · refine ⟨hs, ?_⟩
    split at h
    · rename_i e2 he2
      cases h
      exact he2
    · cases h

/-- The file step fails in two ways only: the read fails for another reason
than a missing file, and the state is as before; or the content read does
not parse, and the configuration holds what the decoder wrote. -/
theorem loadConfigFile_err_cases (env : Env) (d : SinkData) (e : String)
    (h : (loadConfigFile env d).err = some e) :
    (∃ msg, d.SinkConfigFile ≠ "" ∧ env.ReadFile d.SinkConfigFile = .failed msg
      ∧ e = "load conf file failed, err:" ++ msg
      ∧ (loadConfigFile env d).data = d.withConf d.conf)
    ∨ (∃ content e2, d.SinkConfigFile ≠ "" ∧ env.ReadFile d.SinkConfigFile = .ok content
      ∧ (env.yamlUnmarshal content (d.conf.view d)).2 = some e2
      ∧ e = "unmarshal yaml file error:" ++ e2
      ∧ (loadConfigFile env d).data.conf
          = d.conf.store (env.yamlUnmarshal content (d.conf.view d)).1) := by
  by_cases hf : d.SinkConfigFile = ""
  · rw [loadConfigFile_noFile env d hf] at h
    cases h
  · cases hr : env.ReadFile d.SinkConfigFile with
    | ok content =>
      right
      cases hy : (env.yamlUnmarshal content (d.conf.view d)).2 with
      | none =>
        simp only [loadConfigFile, hf, ne_eq, not_false_eq_true, if_true, hr, hy] at h
        cases h
      | some e2 =>
        refine ⟨content, e2, hf, rfl, hy, ?_, ?_⟩
        · simp only [loadConfigFile, hf, ne_eq, not_false_eq_true, if_true, hr, hy] at h
          cases h
          rfl
        · simp only [loadConfigFile, hf, ne_eq, not_false_eq_true, if_true, hr, hy]
          rfl
    | notExist msg =>
      rw [loadConfigFile_notExist env d msg hf hr] at h
      cases h
    | failed msg =>
      left
      refine ⟨msg, hf, rfl, ?_, ?_⟩
      · rw [loadConfigFile_failed env d msg hf hr] at h
        cases h
        rfl
      · rw [loadConfigFile_not_read env d (Or.inr (fun content hc => by rw [hr] at hc; cases hc))]
        rfl

/-- A failed merge stopped at one of its three returns, and the configuration
it leaves is `c` with the assignments made before that return: lines 57-84
before the serde return; those and the serde mapping before the schema
return; those, the schema mapping and lines 104-120 before the conflict
return. `m` and `m2` are the mappings the decoders left, or those of `c`
when the strings are empty. -/
theorem mergeOverrides_failed (env : Env) (d : SinkData) (c : SinkConfig)
    (h : (mergeOverrides env d c).err ≠ none) :
    (∃ e, d.CustomSerdeInputString ≠ ""
      ∧ env.jsonUnmarshalStrings d.CustomSerdeInputString = .error e
      ∧ (mergeOverrides env d c).err = some e
      ∧ (mergeOverrides env d c).conf = { c with
          Tenant := if d.Tenant ≠ "" then d.Tenant else c.Tenant
          Namespace := if d.Namespace ≠ "" then d.Namespace else c.Namespace
          Name := if d.Name ≠ "" then d.Name else c.Name
          ClassName := if d.ClassName ≠ "" then d.ClassName else c.ClassName
          ProcessingGuarantees :=
            if d.ProcessingGuarantees ≠ "" then d.ProcessingGuarantees
            else c.ProcessingGuarantees
          RetainOrdering := if d.RetainOrdering then d.RetainOrdering else c.RetainOrdering
          Inputs := if d.Inputs ≠ "" then strings.Split d.Inputs ',' else c.Inputs })
    ∨ (∃ e m,
      ((d.CustomSerdeInputString = "" ∧ m = c.TopicToSerdeClassName)
        ∨ (d.CustomSerdeInputString ≠ ""
          ∧ env.jsonUnmarshalStrings d.CustomSerdeInputString = .ok m))
      ∧ d.CustomSchemaInputString ≠ ""
      ∧ env.jsonUnmarshalStrings d.CustomSchemaInputString = .error e
      ∧ (mergeOverrides env d c).err = some e
      ∧ (mergeOverrides env d c).conf = { c with
          Tenant := if d.Tenant ≠ "" then d.Tenant else c.Tenant
          Namespace := if d.Namespace ≠ "" then d.Namespace else c.Namespace
          Name := if d.Name ≠ "" then d.Name else c.Name
          ClassName := if d.ClassName ≠ "" then d.ClassName else c.ClassName
          ProcessingGuarantees :=
            if d.ProcessingGuarantees ≠ "" then d.ProcessingGuarantees
            else c.ProcessingGuarantees
          RetainOrdering := if d.RetainOrdering then d.RetainOrdering else c.RetainOrdering
          Inputs := if d.Inputs ≠ "" then strings.Split d.Inputs ',' else c.Inputs
          TopicToSerdeClassName := m })
    ∨ (∃ m m2,
      ((d.CustomSerdeInputString = "" ∧ m = c.TopicToSerdeClassName)
        ∨ (d.CustomSerdeInputString ≠ ""
          ∧ env.jsonUnmarshalStrings d.CustomSerdeInputString = .ok m))
      ∧ ((d.CustomSchemaInputString = "" ∧ m2 = c.TopicToSchemaType)
        ∨ (d.CustomSchemaInputString ≠ ""
          ∧ env.jsonUnmarshalStrings d.CustomSchemaInputString = .ok m2))
      ∧ d.Archive ≠ "" ∧ d.SinkType ≠ ""
      ∧ (mergeOverrides env d c).err = some "Cannot specify both archive and sink-type"
      ∧ (mergeOverrides env d c).conf = { c with
          Tenant := if d.Tenant ≠ "" then d.Tenant else c.Tenant
          Namespace := if d.Namespace ≠ "" then d.Namespace else c.Namespace
          Name := if d.Name ≠ "" then d.Name else c.Name
          ClassName := if d.ClassName ≠ "" then d.ClassName else c.ClassName
          ProcessingGuarantees :=
            if d.ProcessingGuarantees ≠ "" then d.ProcessingGuarantees
            else c.ProcessingGuarantees
          RetainOrdering := if d.RetainOrdering then d.RetainOrdering else c.RetainOrdering
          Inputs := if d.Inputs ≠ "" then strings.Split d.Inputs ',' else c.Inputs
          TopicToSerdeClassName := m
          TopicToSchemaType := m2
          SourceSubscriptionName :=
            if d.SubsName ≠ "" then d.SubsName else c.SourceSubscriptionName
          SourceSubscriptionPosition :=
            if d.SubsPosition ≠ "" then d.SubsPosition else c.SourceSubscriptionPosition
          TopicsPattern := if d.TopicsPattern ≠ "" then Ref.field else c.TopicsPattern
          Parallelism := if d.Parallelism ≠ 0 then d.Parallelism else 1 }) := by
  have serdeCase : ∀ m, (d.CustomSerdeInputString = "" → m = c.TopicToSerdeClassName) →
      (d.CustomSerdeInputString ≠ "" →
        ∃ x, env.jsonUnmarshalStrings d.CustomSerdeInputString = .ok x ∧ m = x) →
      ((d.CustomSerdeInputString = "" ∧ m = c.TopicToSerdeClassName)
        ∨ (d.CustomSerdeInputString ≠ ""
          ∧ env.jsonUnmarshalStrings d.CustomSerdeInputString = .ok m)) := by
    intro m h0 h1
    by_cases hs : d.CustomSerdeInputString = ""
    · exact Or.inl ⟨hs, h0 hs⟩
    · obtain ⟨x, hx, hmx⟩ := h1 hs
      exact Or.inr ⟨hs, by rw [hmx]; exact hx⟩
  have schemaCase : ∀ m, (d.CustomSchemaInputString = "" → m = c.TopicToSchemaType) →
      (d.CustomSchemaInputString ≠ "" →
        ∃ x, env.jsonUnmarshalStrings d.CustomSchemaInputString = .ok x ∧ m = x) →
      ((d.CustomSchemaInputString = "" ∧ m = c.TopicToSchemaType)
        ∨ (d.CustomSchemaInputString ≠ ""
          ∧ env.jsonUnmarshalStrings d.CustomSchemaInputString = .ok m)) := by
    intro m h0 h1
    by_cases hs : d.CustomSchemaInputString = ""
    · exact Or.inl ⟨hs, h0 hs⟩
    · obtain ⟨x, hx, hmx⟩ := h1 hs
      exact Or.inr ⟨hs, by rw [hmx]; exact hx⟩
  cases h2 : mergeSerde env d (mergeIdentity d c) with
  | error e =>
    left
    obtain ⟨hne, hbad⟩ := mergeSerde_err_inv env d _ e h2
    refine ⟨e, hne, hbad, ?_, ?_⟩
    · rw [mergeOverrides_serde_err env d c e h2]
    · rw [mergeOverrides_serde_err env d c e h2, mergeIdentity_eq]
  | ok c2 =>
    right
    obtain ⟨m, rfl, hm0, hm1⟩ := mergeSerde_ok env _ _ _ h2
    rw [mergeIdentity_eq] at hm0
    cases h3 : mergeSchema env d _ with
    | error e =>
      left
      obtain ⟨hne, hbad⟩ := mergeSchema_err_inv env d _ e h3
      refine ⟨e, m, serdeCase m hm0 hm1, hne, hbad, ?_, ?_⟩
      · rw [mergeOverrides_schema_err env d c _ e h2 h3]
      · rw [mergeOverrides_schema_err env d c _ e h2 h3, mergeIdentity_eq]
    | ok c3 =>
      right
      obtain ⟨m2, rfl, hm20, hm21⟩ := mergeSchema_ok env _ _ _ h3
      rw [mergeIdentity_eq] at hm20
      by_cases hk : d.Archive ≠ "" ∧ d.SinkType ≠ ""
      · refine ⟨m, m2, serdeCase m hm0 hm1, schemaCase m2 hm20 hm21, hk.1, hk.2, ?_, ?_⟩
        · rw [mergeOverrides_conflict_conf env d c _ _ h2 h3 hk]
        · rw [mergeOverrides_conflict_conf env d c _ _ h2 h3 hk]
          simp only [mergeSubscription_eq, mergeIdentity_eq]
      · exfalso
        apply h
        simp only [mergeOverrides, h2, h3, hk, if_false]

/-- A `SinkData` that holds a configuration is not changed by storing that
configuration into it. -/
theorem SinkData.withConf_conf (d : SinkData) (c0 : SinkConfig) (h : d.SinkConf = some c0) :
    d.withConf d.conf = d := by
  cases d
  simp only [SinkData.withConf, SinkData.conf] at h ⊢
  subst h
  rfl

/-- The configuration the file step leaves when the file is read: what the
decoder wrote onto the configuration held, whether or not it then failed. -/
theorem loadConfigFile_read_conf (env : Env) (d : SinkData) (content : String)
    (hne : d.SinkConfigFile ≠ "") (hr : env.ReadFile d.SinkConfigFile = .ok content) :
    (loadConfigFile env d).data.conf
      = d.conf.store (env.yamlUnmarshal content (d.conf.view d)).1 := by
  cases hy : (env.yamlUnmarshal content (d.conf.view d)).2 with
  | none =>
    simp only [loadConfigFile, hne, ne_eq, not_false_eq_true, if_true, hr, hy]
    rfl
  | some e =>
    simp only [loadConfigFile, hne, ne_eq, not_false_eq_true, if_true, hr, hy]
    rfl

/-- C11, counterexample: the base holds tenant `t0`, the overrides set tenant
`t2` and a serde string that is not JSON. `processArguments` returns the
decoder error, and the configuration it leaves holds tenant `t2`: line 58 ran
before the return of line 90. -/
theorem processArguments_partial_on_error :
    (processArguments demoEnv { SinkData.zero with
        Tenant := "t2", CustomSerdeInputString := "\x7bnot valid json",
        SinkConf := some { SinkConfig.zero with Tenant := "t0" } }).err
      = some "invalid character"
    ∧ (processArguments demoEnv { SinkData.zero with
        Tenant := "t2", CustomSerdeInputString := "\x7bnot valid json",
        SinkConf := some { SinkConfig.zero with Tenant := "t0" } }).data.conf.Tenant = "t2"
    ∧ (processArguments demoEnv { SinkData.zero with
        Tenant := "t2", CustomSerdeInputString := "\x7bnot valid json",
        SinkConf := some { SinkConfig.zero with Tenant := "t0" } }).data.conf
      ≠ { SinkConfig.zero with Tenant := "t0" } := by
  decide

/-- C11, amended: when `processArguments` returns an error on an input that
holds a configuration `c0`, one of its five returns failed and the
configuration it leaves is fixed by that return. `base` is the configuration
left by the file step: it is `c0` when no file is decoded, and what the
decoder wrote onto `c0` when a file is read.

* The read failed (not for a missing file): the whole state is as before.
* The content did not parse: the configuration is what the decoder wrote
  onto `c0`.
* The serde string did not decode: `base` with tenant, namespace, name,
  className, processingGuarantees, retainOrdering and inputs replaced by
  their overrides where set; every other field is that of `base`.
* The schema string did not decode: the same, with the serde mapping
  replaced by the map the decoder left when the serde string is set.
* Archive and sink type are both set: the same, with the schema mapping
  replaced likewise, the subscription name and position and the topics
  pattern replaced by their overrides where set, and the parallelism set to
  its override, or to 1 when that is 0; archive, resources, configs, autoAck
  and timeoutMs are those of `base`. -/
theorem processArguments_error_frame (env : Env) (d : SinkData) (c0 base : SinkConfig)
    (hc0 : d.SinkConf = some c0)
    (hbase : (loadConfigFile env d).data.conf = base)
    (h : (processArguments env d).err ≠ none) :
    ((∃ msg, d.SinkConfigFile ≠ "" ∧ env.ReadFile d.SinkConfigFile = .failed msg
        ∧ (processArguments env d).err = some ("load conf file failed, err:" ++ msg)
        ∧ (processArguments env d).data = d)
      ∨ (∃ content e, d.SinkConfigFile ≠ "" ∧ env.ReadFile d.SinkConfigFile = .ok content
        ∧ (env.yamlUnmarshal content (c0.view d)).2 = some e
        ∧ (processArguments env d).err = some ("unmarshal yaml file error:" ++ e)
        ∧ (processArguments env d).data.conf
            = c0.store (env.yamlUnmarshal content (c0.view d)).1)
      ∨ (∃ e, (loadConfigFile env d).err = none
        ∧ d.CustomSerdeInputString ≠ ""
        ∧ env.jsonUnmarshalStrings d.CustomSerdeInputString = .error e
        ∧ (processArguments env d).err = some e
        ∧ (processArguments env d).data.conf = { base with
            Tenant := if d.Tenant ≠ "" then d.Tenant else base.Tenant
            Namespace := if d.Namespace ≠ "" then d.Namespace else base.Namespace
            Name := if d.Name ≠ "" then d.Name else base.Name
            ClassName := if d.ClassName ≠ "" then d.ClassName else base.ClassName
            ProcessingGuarantees :=
              if d.ProcessingGuarantees ≠ "" then d.ProcessingGuarantees
              else base.ProcessingGuarantees
            RetainOrdering :=
              if d.RetainOrdering then d.RetainOrdering else base.RetainOrdering
            Inputs := if d.Inputs ≠ "" then strings.Split d.Inputs ',' else base.Inputs })
      ∨ (∃ e m, (loadConfigFile env d).err = none
        ∧ ((d.CustomSerdeInputString = "" ∧ m = base.TopicToSerdeClassName)
          ∨ (d.CustomSerdeInputString ≠ ""
            ∧ env.jsonUnmarshalStrings d.CustomSerdeInputString = .ok m))
        ∧ d.CustomSchemaInputString ≠ ""
        ∧ env.jsonUnmarshalStrings d.CustomSchemaInputString = .error e
        ∧ (processArguments env d).err = some e
        ∧ (processArguments env d).data.conf = { base with
            Tenant := if d.Tenant ≠ "" then d.Tenant else base.Tenant
            Namespace := if d.Namespace ≠ "" then d.Namespace else base.Namespace
            Name := if d.Name ≠ "" then d.Name else base.Name
            ClassName := if d.ClassName ≠ "" then d.ClassName else base.ClassName
            ProcessingGuarantees :=
              if d.ProcessingGuarantees ≠ "" then d.ProcessingGuarantees
              else base.ProcessingGuarantees
            RetainOrdering :=
              if d.RetainOrdering then d.RetainOrdering else base.RetainOrdering
            Inputs := if d.Inputs ≠ "" then strings.Split d.Inputs ',' else base.Inputs
            TopicToSerdeClassName := m })
      ∨ (∃ m m2, (loadConfigFile env d).err = none
        ∧ ((d.CustomSerdeInputString = "" ∧ m = base.TopicToSerdeClassName)
          ∨ (d.CustomSerdeInputString ≠ ""
            ∧ env.jsonUnmarshalStrings d.CustomSerdeInputString = .ok m))
        ∧ ((d.CustomSchemaInputString = "" ∧ m2 = base.TopicToSchemaType)
          ∨ (d.CustomSchemaInputString ≠ ""
            ∧ env.jsonUnmarshalStrings d.CustomSchemaInputString = .ok m2))
        ∧ d.Archive ≠ "" ∧ d.SinkType ≠ ""
        ∧ (processArguments env d).err = some "Cannot specify both archive and sink-type"
        ∧ (processArguments env d).data.conf = { base with
            Tenant := if d.Tenant ≠ "" then d.Tenant else base.Tenant
            Namespace := if d.Namespace ≠ "" then d.Namespace else base.Namespace
            Name := if d.Name ≠ "" then d.Name else base.Name
            ClassName := if d.ClassName ≠ "" then d.ClassName else base.ClassName
            ProcessingGuarantees :=
              if d.ProcessingGuarantees ≠ "" then d.ProcessingGuarantees
              else base.ProcessingGuarantees
            RetainOrdering :=
              if d.RetainOrdering then d.RetainOrdering else base.RetainOrdering
            Inputs := if d.Inputs ≠ "" then strings.Split d.Inputs ',' else base.Inputs
            TopicToSerdeClassName := m
            TopicToSchemaType := m2
            SourceSubscriptionName :=
              if d.SubsName ≠ "" then d.SubsName else base.SourceSubscriptionName
            SourceSubscriptionPosition :=
              if d.SubsPosition ≠ "" then d.SubsPosition else base.SourceSubscriptionPosition
            TopicsPattern :=
              if (processArguments env d).data.TopicsPattern ≠ "" then Ref.field
              else base.TopicsPattern
            Parallelism := if d.Parallelism ≠ 0 then d.Parallelism else 1 }))
    ∧ ((d.SinkConfigFile = "" ∨ ∀ content, env.ReadFile d.SinkConfigFile ≠ .ok content) →
        base = c0 ∧ (processArguments env d).data.TopicsPattern = d.TopicsPattern)
    ∧ (∀ content, d.SinkConfigFile ≠ "" → env.ReadFile d.SinkConfigFile = .ok content →
        base = c0.store (env.yamlUnmarshal content (c0.view d)).1) := by
  have hdc : d.conf = c0 := by
    simp only [SinkData.conf, hc0]
  refine ⟨?_, ?_, ?_⟩
  · cases hl : (loadConfigFile env d).err with
    | some e0 =>
      rw [processArguments_of_load_err env d e0 hl]
      rcases loadConfigFile_err_cases env d e0 hl with
        ⟨msg, hne, hr, he, hdata⟩ | ⟨content, e2, hne, hr, hy, he, hconf⟩
      · left
        refine ⟨msg, hne, hr, ?_, ?_⟩
        · rw [he]
        · show (loadConfigFile env d).data = d
          rw [hdata, SinkData.withConf_conf d c0 hc0]
      · right
        left
        rw [hdc] at hy hconf
        exact ⟨content, e2, hne, hr, hy, by rw [he], hconf⟩
    | none =>
      have hm : (mergeOverrides env (loadConfigFile env d).data
          (loadConfigFile env d).data.conf).err ≠ none := by
        rw [processArguments_err, hl] at h
        exact h
      have hout := processArguments_of_load_ok env d hl
      obtain ⟨tp, tm, conf, hL⟩ := loadConfigFile_data env d
      have hb : conf = base := by
        rw [← hbase, hL]
        rfl
      subst hb
      rw [hL] at hm hout
      rw [hout]
      right
      right
      rcases mergeOverrides_failed env _ _ hm with
        ⟨e, hne, hbad, herr, hconf⟩ | ⟨e, m, hs, hne, hbad, herr, hconf⟩
          | ⟨m, m2, hs, hsc, hA, hT, herr, hconf⟩
      · exact Or.inl ⟨e, rfl, hne, hbad, herr, hconf⟩
      · exact Or.inr (Or.inl ⟨e, m, rfl, hs, hne, hbad, herr, hconf⟩)
      · exact Or.inr (Or.inr ⟨m, m2, rfl, hs, hsc, hA, hT, herr, hconf⟩)
  · intro hnr
    have hdata := loadConfigFile_not_read env d hnr
    refine ⟨?_, ?_⟩
    · rw [← hbase, hdata]
      exact hdc
    · obtain ⟨tp, tm, conf, hL⟩ := loadConfigFile_data env d
      cases hl : (loadConfigFile env d).err with
      | some e0 =>
        rw [processArguments_of_load_err env d e0 hl]
        show (loadConfigFile env d).data.TopicsPattern = d.TopicsPattern
        rw [hdata]
      | none =>
        rw [processArguments_of_load_ok env d hl]
        show (loadConfigFile env d).data.TopicsPattern = d.TopicsPattern
        rw [hdata]
  · intro content hne hr
    rw [← hbase, loadConfigFile_read_conf env d content hne hr, hdc]

/-- Witness of `processArguments_error_frame`: an archive, a sink type and a
tenant override onto a base with tenant `t0` and archive `old.nar`; the call
stops at the conflict, the tenant is `t2` and the archive still `old.nar`. -/
theorem processArguments_error_frame_witness :
    (processArguments demoEnv { SinkData.zero with
        Tenant := "t2", Archive := "x", SinkType := "kafka",
        SinkConf := some { SinkConfig.zero with
          Tenant := "t0", Archive := "old.nar" } }).data.conf.Archive = "old.nar"
    ∧ (processArguments demoEnv { SinkData.zero with
        Tenant := "t2", Archive := "x", SinkType := "kafka",
        SinkConf := some { SinkConfig.zero with
          Tenant := "t0", Archive := "old.nar" } }).data.conf.Tenant = "t2" := by
  obtain ⟨hcases, -⟩ := processArguments_error_frame demoEnv { SinkData.zero with
      Tenant := "t2", Archive := "x", SinkType := "kafka",
      SinkConf := some { SinkConfig.zero with Tenant := "t0", Archive := "old.nar" } }
    { SinkConfig.zero with Tenant := "t0", Archive := "old.nar" }
    { SinkConfig.zero with Tenant := "t0", Archive := "old.nar" } rfl rfl (by decide)
  rcases hcases with ⟨msg, hne, -⟩ | ⟨content, e, hne, -⟩ | ⟨e, -, hne, -⟩
    | ⟨e, m, -, -, hne, -⟩ | ⟨m, m2, -, -, -, -, -, -, hconf⟩
  · exact absurd rfl hne
  · exact absurd rfl hne
  · exact absurd rfl hne
  · exact absurd rfl hne
  · rw [hconf]
    exact ⟨rfl, rfl⟩

end Sinks
